import Mathlib

/-!
# redo_log_dumper: the record decoder and the sequencing driver

A shallow embedding of `main.go`.  Records are decoded from 512-byte chunks of
the input file with Go's `encoding/binary` in big-endian order, and every
record is rendered to standard output.

Conventions of the embedding:

* a byte is a `Fin 256`; unsigned integer fields are natural numbers;
* a file is the list of its bytes together with a read position;
* standard output is the list of the strings written, one per print call;
* `encoding/binary`, `os.File.Read`, `os.File.Seek` and the `fmt` verbs used by
  the program are library code; they are modelled after their documented
  behaviour on a regular file.
-/

set_option maxRecDepth 100000

namespace RedoLogDumper

/-- One byte of a file or buffer. -/
abbrev Byte := Fin 256

/-- Go slice expression `b[lo:hi]`. -/
def slice (b : List Byte) (lo hi : Nat) : List Byte :=
  (b.drop lo).take (hi - lo)

/-! ## `encoding/binary`: big-endian byte order -/

namespace BigEndian

/-- `binary.BigEndian.Uint16`: `uint16(b[1]) | uint16(b[0])<<8`. -/
def Uint16 (b : List Byte) : Nat :=
  (b.getD 1 0).val ||| (b.getD 0 0).val <<< 8

/-- `binary.BigEndian.Uint32`:
`uint32(b[3]) | uint32(b[2])<<8 | uint32(b[1])<<16 | uint32(b[0])<<24`. -/
def Uint32 (b : List Byte) : Nat :=
  (b.getD 3 0).val ||| (b.getD 2 0).val <<< 8 ||| (b.getD 1 0).val <<< 16 |||
    (b.getD 0 0).val <<< 24

/-- `binary.BigEndian.Uint64`. -/
def Uint64 (b : List Byte) : Nat :=
  (b.getD 7 0).val ||| (b.getD 6 0).val <<< 8 ||| (b.getD 5 0).val <<< 16 |||
    (b.getD 4 0).val <<< 24 ||| (b.getD 3 0).val <<< 32 ||| (b.getD 2 0).val <<< 40 |||
    (b.getD 1 0).val <<< 48 ||| (b.getD 0 0).val <<< 56

end BigEndian

/-! ## `encoding/binary`: sizes of the record types -/

/-- The Go types that occur as fields of the three records. -/
inductive Kind where
  | Uint8
  | Uint16
  | Uint32
  | Uint64
  | Array (len : Nat) (elem : Kind)
  deriving Repr, DecidableEq

/-- A struct field: its name (`_` for a blank field) and its type. -/
structure StructField where
  Name : String
  Typ : Kind
  deriving Repr, DecidableEq

/-- A struct type: its fields in declaration order. -/
abbrev StructType := List StructField

/-- `binary.sizeof` on a field type: arrays are `len * sizeof(elem)`, integers
their width in bytes. -/
def sizeof : Kind → Nat
  | .Uint8 => 1
  | .Uint16 => 2
  | .Uint32 => 4
  | .Uint64 => 8
  | .Array len elem => len * sizeof elem

/-- `binary.sizeof` on a struct type: the sum of the sizes of all its fields,
blank ones included. -/
def sizeofStruct : StructType → Nat
  | [] => 0
  | f :: fs => sizeof f.Typ + sizeofStruct fs

/-- Declaration of `type Header struct`. -/
def HeaderType : StructType :=
  [ ⟨"GroupNumber", .Uint32⟩,
    ⟨"FirstLSN", .Uint64⟩,
    ⟨"ArchivedLogFileNumber", .Uint32⟩,
    ⟨"_", .Array 32 .Uint8⟩,
    ⟨"_", .Array 464 .Uint8⟩ ]

/-- Declaration of `type Checkpoint struct`. -/
def CheckpointType : StructType :=
  [ ⟨"Number", .Uint64⟩,
    ⟨"LSN", .Uint64⟩,
    ⟨"Offset", .Uint32⟩,
    ⟨"BufferSize", .Uint32⟩,
    ⟨"ArchivedLSN", .Uint64⟩,
    ⟨"_", .Array 256 .Uint8⟩,
    ⟨"Checksum1", .Uint32⟩,
    ⟨"Checksum2", .Uint32⟩,
    ⟨"CuurentFSP", .Uint32⟩,
    ⟨"Magic", .Uint32⟩,
    ⟨"_", .Array 208 .Uint8⟩ ]

/-- Declaration of `type LogBlock struct`. -/
def LogBlockType : StructType :=
  [ ⟨"HeaderNumber", .Uint32⟩,
    ⟨"BlockSize", .Uint16⟩,
    ⟨"Offset", .Uint16⟩,
    ⟨"CurrentActiveCheckpoint", .Uint32⟩,
    ⟨"HdrSize", .Uint16⟩,
    ⟨"Data", .Array 494 .Uint8⟩,
    ⟨"Checksum", .Uint32⟩ ]

/-! ## The records -/

/-- The file header.  The two blank fields cannot be read and are not kept. -/
structure Header where
  GroupNumber : Nat
  FirstLSN : Nat
  ArchivedLogFileNumber : Nat
  deriving Repr, DecidableEq

/-- A checkpoint record. -/
structure Checkpoint where
  Number : Nat
  LSN : Nat
  Offset : Nat
  BufferSize : Nat
  ArchivedLSN : Nat
  Checksum1 : Nat
  Checksum2 : Nat
  CuurentFSP : Nat
  Magic : Nat
  deriving Repr, DecidableEq

/-- A log block. -/
structure LogBlock where
  HeaderNumber : Nat
  BlockSize : Nat
  Offset : Nat
  CurrentActiveCheckpoint : Nat
  HdrSize : Nat
  Data : List Byte
  Checksum : Nat
  deriving Repr, DecidableEq

/-- Go zero value `Header{}`. -/
def Header.zero : Header := ⟨0, 0, 0⟩

/-- Go zero value `Checkpoint{}`. -/
def Checkpoint.zero : Checkpoint := ⟨0, 0, 0, 0, 0, 0, 0, 0, 0⟩

/-- Go zero value `LogBlock{}`: the data array holds 494 zero bytes. -/
def LogBlock.zero : LogBlock := ⟨0, 0, 0, 0, 0, List.replicate 494 0, 0⟩

/-! ## `encoding/binary`: the decoder -/

/-- The decoder state of `encoding/binary`: the bytes read and a cursor. -/
structure decoder where
  buf : List Byte
  offset : Nat
  deriving Repr, DecidableEq

namespace decoder

/-- `d.uint8()`: `x := d.buf[d.offset]; d.offset++`. -/
def uint8 (d : decoder) : Byte × decoder :=
  (d.buf.getD d.offset 0, { d with offset := d.offset + 1 })

/-- `d.uint16()`: `d.order.Uint16(d.buf[d.offset:d.offset+2]); d.offset += 2`. -/
def uint16 (d : decoder) : Nat × decoder :=
  (BigEndian.Uint16 (slice d.buf d.offset (d.offset + 2)), { d with offset := d.offset + 2 })

/-- `d.uint32()`. -/
def uint32 (d : decoder) : Nat × decoder :=
  (BigEndian.Uint32 (slice d.buf d.offset (d.offset + 4)), { d with offset := d.offset + 4 })

/-- `d.uint64()`. -/
def uint64 (d : decoder) : Nat × decoder :=
  (BigEndian.Uint64 (slice d.buf d.offset (d.offset + 8)), { d with offset := d.offset + 8 })

/-- `d.skip(v)` on a blank field of type `k`: `d.offset += dataSize(v)`. -/
def skip (d : decoder) (k : Kind) : decoder :=
  { d with offset := d.offset + sizeof k }

/-- `d.value(v)` on a byte array of length `len`: the elements are decoded one
after the other with `d.uint8()`. -/
def byteArray : Nat → decoder → List Byte × decoder
  | 0, d => ([], d)
  | len + 1, d =>
    let (x, d1) := d.uint8
    let (xs, d2) := byteArray len d1
    (x :: xs, d2)

/-- `d.value(v)` on a `Header`: the fields in declaration order, blank fields
skipped. -/
def valueHeader (d : decoder) : Header × decoder :=
  let (groupNumber, d) := d.uint32
  let (firstLSN, d) := d.uint64
  let (archivedLogFileNumber, d) := d.uint32
  let d := d.skip (.Array 32 .Uint8)
  let d := d.skip (.Array 464 .Uint8)
  (⟨groupNumber, firstLSN, archivedLogFileNumber⟩, d)

/-- `d.value(v)` on a `Checkpoint`. -/
def valueCheckpoint (d : decoder) : Checkpoint × decoder :=
  let (number, d) := d.uint64
  let (lsn, d) := d.uint64
  let (offset, d) := d.uint32
  let (bufferSize, d) := d.uint32
  let (archivedLSN, d) := d.uint64
  let d := d.skip (.Array 256 .Uint8)
  let (checksum1, d) := d.uint32
  let (checksum2, d) := d.uint32
  let (cuurentFSP, d) := d.uint32
  let (magic, d) := d.uint32
  let d := d.skip (.Array 208 .Uint8)
  (⟨number, lsn, offset, bufferSize, archivedLSN, checksum1, checksum2, cuurentFSP, magic⟩, d)

/-- `d.value(v)` on a `LogBlock`. -/
def valueLogBlock (d : decoder) : LogBlock × decoder :=
  let (headerNumber, d) := d.uint32
  let (blockSize, d) := d.uint16
  let (offset, d) := d.uint16
  let (currentActiveCheckpoint, d) := d.uint32
  let (hdrSize, d) := d.uint16
  let (data, d) := d.byteArray 494
  let (checksum, d) := d.uint32
  (⟨headerNumber, blockSize, offset, currentActiveCheckpoint, hdrSize, data, checksum⟩, d)

end decoder

/-- Go `error` values that the program can meet. -/
inductive GoError where
  | EOF
  | ErrUnexpectedEOF
  | Wrap (cause : GoError) (message : String)
  deriving Repr, DecidableEq

/-- What `binary.Read` needs to know about a destination type: its
declaration (for `dataSize`) and the field walk of the decoder. -/
structure BinaryData (α : Type) where
  typ : StructType
  value : decoder → α × decoder

/-- Decoding into `*Header`. -/
def Header.binary : BinaryData Header := ⟨HeaderType, decoder.valueHeader⟩

/-- Decoding into `*Checkpoint`. -/
def Checkpoint.binary : BinaryData Checkpoint := ⟨CheckpointType, decoder.valueCheckpoint⟩

/-- Decoding into `*LogBlock`. -/
def LogBlock.binary : BinaryData LogBlock := ⟨LogBlockType, decoder.valueLogBlock⟩

/-- `binary.Size(v)`: the size of the encoding of `v`, read off its type. -/
def Size {α : Type} (t : BinaryData α) (_v : α) : Nat :=
  sizeofStruct t.typ

/-- `binary.Read(buffer, binary.BigEndian, dest)` on a `bytes.Buffer` holding
`data`: `size := dataSize(v)`; `io.ReadFull` of `size` bytes fails with `EOF`
on an empty buffer and with `ErrUnexpectedEOF` on a shorter one, leaving `dest`
as it was; otherwise the fields are decoded from the bytes read. -/
def binaryRead {α : Type} (t : BinaryData α) (data : List Byte) (dest : α) :
    Option GoError × α :=
  let size := sizeofStruct t.typ
  if data.length < size then
    if data.length = 0 then (some .EOF, dest) else (some .ErrUnexpectedEOF, dest)
  else
    let d : decoder := { buf := data.take size, offset := 0 }
    (none, (t.value d).1)

/-! ## `os.File` -/

/-- An open regular file: its bytes and the read position. -/
structure File where
  data : List Byte
  pos : Nat
  deriving Repr, DecidableEq

/-- `file.Read(b)` on a regular file: copies the next `min(len(b), remaining)`
bytes to the front of `b` and advances the position by that count; at end of
file (no byte left, `len(b) > 0`) it returns `0, io.EOF`.  The result is the
buffer after the call, the count and the error. -/
def File.Read (file : File) (b : List Byte) : (List Byte × Nat × Option GoError) × File :=
  let n := min b.length (file.data.length - file.pos)
  if n = 0 ∧ 0 < b.length then
    ((b, 0, some .EOF), file)
  else
    ((slice file.data file.pos (file.pos + n) ++ b.drop n, n, none),
      { file with pos := file.pos + n })

/-- `file.Seek(offset, io.SeekCurrent)` with a non-negative offset: the new
position and no error. -/
def File.Seek (file : File) (offset : Nat) : (Nat × Option GoError) × File :=
  ((file.pos + offset, none), { file with pos := file.pos + offset })

/-! ## The two read helpers of `main.go` -/

/-- Source function `readNextBytes`: a fresh zeroed buffer of `number` bytes is
handed to `file.Read`; the count is dropped; on an error the result is
`nil, err`, otherwise the buffer. -/
def readNextBytes (file : File) (number : Nat) : (List Byte × Option GoError) × File :=
  let bytes : List Byte := List.replicate number 0
  let ((bytes, _, err), file) := file.Read bytes
  match err with
  | some e => (([], some e), file)
  | none => ((bytes, none), file)

/-- Source function `readIntoStruct`: the error of `readNextBytes` is returned
as it is and `dest` is not touched; otherwise `binary.Read` decodes the buffer
into `dest` and its error is wrapped. -/
def readIntoStruct {α : Type} (t : BinaryData α) (file : File) (dest : α) (size : Nat) :
    (Option GoError × α) × File :=
  let ((data, err), file) := readNextBytes file size
  match err with
  | some e => ((some e, dest), file)
  | none =>
    let (err, dest) := binaryRead t data dest
    match err with
    | some e => ((some (.Wrap e "binary.Read failed"), dest), file)
    | none => ((none, dest), file)

/-! ## `fmt` verbs -/

/-- Verb `%d` on an unsigned integer. -/
def fmtd (u : Nat) : String :=
  String.mk (Nat.toDigits 10 u)

/-- Verbs `%X` and `%0X` (no width) on an unsigned integer: base 16 with the
upper-case digit table. -/
def fmtX (u : Nat) : String :=
  String.mk ((Nat.toDigits 16 u).map Char.toUpper)

/-- Two upper-case hexadecimal digits of one byte. -/
def fmtByteX (c : Byte) : String :=
  String.mk [(Nat.digitChar (c.val / 16)).toUpper, (Nat.digitChar (c.val % 16)).toUpper]

/-- Verb `% X` on a byte array: two digits per byte, a space between bytes. -/
def fmtSpaceX (b : List Byte) : String :=
  " ".intercalate (b.map fmtByteX)

/-- Verb `%v` on a `bool`. -/
def fmtv (b : Bool) : String :=
  if b then "true" else "false"

/-! ## `main` -/

/-- The rule line printed before each of the first three reports: 80 times
the character `=`. -/
def rule : String :=
  String.mk (List.replicate 80 '=') ++ "\n"

/-- The header report of `main`. -/
def headerReport (header : Header) : List String :=
  [ rule,
    "Parsed header data:\n",
    "Group Number            : " ++ fmtd header.GroupNumber ++ "\n",
    "First LSN               : " ++ fmtd header.FirstLSN ++ "\n",
    "Archived Log File Number: " ++ fmtd header.ArchivedLogFileNumber ++ "\n" ]

/-- The report of the first checkpoint in `main`. -/
def firstCheckpointReport (checkpoint : Checkpoint) : List String :=
  [ rule,
    "Parsed first checkpoint data:\n",
    "Number     : 0x" ++ fmtX checkpoint.Number ++ "\n",
    "LSN        : 0x" ++ fmtX checkpoint.LSN ++ "\n",
    "Offset     : 0x" ++ fmtd checkpoint.Offset ++ "\n",
    "BufferSize : " ++ fmtd checkpoint.BufferSize ++ "\n",
    "ArchivedLSN: 0x" ++ fmtX checkpoint.ArchivedLSN ++ "\n",
    "Checksum1  : 0x" ++ fmtX checkpoint.Checksum1 ++ "\n",
    "Checksum2  : 0x" ++ fmtX checkpoint.Checksum2 ++ "\n",
    "CurentFSP  : 0x" ++ fmtX checkpoint.CuurentFSP ++ "\n",
    "Magic      : 0x" ++ fmtX checkpoint.Magic ++ "\n" ]

/-- The report of the second checkpoint in `main`, with the two empty lines
that follow it. -/
def secondCheckpointReport (checkpoint2 : Checkpoint) : List String :=
  [ rule,
    "Parsed second checkpoint data:\n",
    "Number     : 0x" ++ fmtX checkpoint2.Number ++ "\n",
    "LSN        : 0x" ++ fmtX checkpoint2.LSN ++ "\n",
    "Offset     : 0x" ++ fmtX checkpoint2.Offset ++ "\n",
    "BufferSize : " ++ fmtd checkpoint2.BufferSize ++ "\n",
    "ArchivedLSN: 0x" ++ fmtX checkpoint2.ArchivedLSN ++ "\n",
    "Checksum1  : 0x" ++ fmtX checkpoint2.Checksum1 ++ "\n",
    "Checksum2  : 0x" ++ fmtX checkpoint2.Checksum2 ++ "\n",
    "CurentFSP  : 0x" ++ fmtX checkpoint2.CuurentFSP ++ "\n",
    "Magic      : 0x" ++ fmtX checkpoint2.Magic ++ "\n",
    "\n",
    "\n" ]

/-- The local `firstBlockMask := uint32(0x80000000)` of `main`. -/
def firstBlockMask : Nat := 0x80000000

/-- The value printed on the `Is first block` line:
`logBlock.HeaderNumber&firstBlockMask == firstBlockMask`. -/
def isFirstBlock (headerNumber : Nat) : Bool :=
  headerNumber &&& firstBlockMask == firstBlockMask

/-- The nine prints of the loop body of `main`. -/
def logBlockReport (logBlock : LogBlock) : List String :=
  [ "Header number     : 0x" ++ fmtX logBlock.HeaderNumber ++ "\n",
    "Is first block    : " ++ fmtv (isFirstBlock logBlock.HeaderNumber) ++ "\n",
    "Size              : " ++ fmtd logBlock.BlockSize ++ "\n",
    "Offset            : " ++ fmtd logBlock.Offset ++ "\n",
    "Current checkpoint: 0x" ++ fmtX logBlock.CurrentActiveCheckpoint ++ "\n",
    "Hdr-size          : " ++ fmtd logBlock.HdrSize ++ "\n",
    "Checksum          : 0x" ++ fmtX logBlock.Checksum ++ "\n",
    "Data:\n" ++ fmtSpaceX logBlock.Data ++ "\n",
    "\n" ]

/-- The loop `for i := 0; err == nil; i++ { ... }` of `main`: the guard is
tested first; the body reads into a fresh `LogBlock{}`, keeps the error for the
next test of the guard and prints the report whatever the error is.  The result
is what the loop prints; `none` means that `fuel` iterations were not enough. -/
def blockLoop : Nat → File → Option GoError → Option (List String)
  | 0, _, _ => none
  | fuel + 1, file, err =>
    if err = none then
      let ((err, logBlock), file) := readIntoStruct LogBlock.binary file LogBlock.zero 512
      (blockLoop fuel file err).map (fun rest => logBlockReport logBlock ++ rest)
    else
      some []

/-- The constant `path` of `main`. -/
def path : String := "/home/karl/sandboxes/msb_5_7_21/data/ib_logfile0"

/-- The constant `cpsize` of `main`. -/
def cpsize : Nat := 512

/-- The body of `main` once the file is open: everything written to standard
output.  The block loop is run with a number of iterations that grows with the
bytes left in the file. -/
def dump (file : File) : Option (List String) :=
  let opened := [path ++ " opened\n"]
  let ((_, header), file) := readIntoStruct Header.binary file Header.zero 512
  let out1 := headerReport header
  let ((_, checkpoint), file) := readIntoStruct Checkpoint.binary file Checkpoint.zero cpsize
  let out2 := firstCheckpointReport checkpoint
  let ((err, checkpoint2), file) := readIntoStruct Checkpoint.binary file Checkpoint.zero cpsize
  let out3 := secondCheckpointReport checkpoint2
  -- `if pos, err := file.Seek(...); err == nil`: this `err` shadows the outer one
  let ((pos, seekErr), file) := file.Seek 512
  let out4 := if seekErr = none then ["Current position: " ++ fmtd pos ++ "\n"] else []
  (blockLoop (file.data.length - file.pos + 2) file err).map
    (fun blocks => opened ++ out1 ++ out2 ++ out3 ++ out4 ++ blocks)

/-- Source function `main`: `contents` is what `os.Open(path)` finds, `none`
when the file cannot be opened (`log.Fatal` then ends the program with nothing
on standard output). -/
def main (contents : Option (List Byte)) : Option (List String) :=
  match contents with
  | none => some []
  | some data => dump { data := data, pos := 0 }

/-! ## Reference notions used to state the properties -/

/-- The unsigned integer that a byte string denotes in big-endian order: the
first byte is the most significant. -/
def beNat (bs : List Byte) : Nat :=
  bs.foldl (fun acc x => acc * 256 + x.val) 0

/-- Decoding a buffer as a `Header`: `binary.Read` into `Header{}`. -/
def decodeHeader (b : List Byte) : Option GoError × Header :=
  binaryRead Header.binary b Header.zero

/-- Decoding a buffer as a `Checkpoint`: `binary.Read` into `Checkpoint{}`. -/
def decodeCheckpoint (b : List Byte) : Option GoError × Checkpoint :=
  binaryRead Checkpoint.binary b Checkpoint.zero

/-- Decoding a buffer as a `LogBlock`: `binary.Read` into `LogBlock{}`. -/
def decodeLogBlock (b : List Byte) : Option GoError × LogBlock :=
  binaryRead LogBlock.binary b LogBlock.zero

/-- The buffer that `readNextBytes` hands to `binary.Read` when at least one
byte is left: the bytes read, then the zero bytes of the fresh buffer. -/
def readBuffer (file : File) : List Byte :=
  slice file.data file.pos (file.pos + min 512 (file.data.length - file.pos)) ++
    List.replicate (512 - min 512 (file.data.length - file.pos)) 0

/-- The log blocks decoded from the `n` complete 512-byte chunks that start at
offset `pos`. -/
def completeBlocks (data : List Byte) (pos n : Nat) : List LogBlock :=
  (List.range n).map
    (fun k => (decodeLogBlock (slice data (pos + 512 * k) (pos + 512 * k + 512))).2)

/-- The log blocks that the loop renders once fewer than 512 bytes are left at
`pos`: the block read from the bytes left, if there are any, and the block of
the read that fails. -/
def tailBlocks (data : List Byte) (pos : Nat) : List LogBlock :=
  if data.length ≤ pos then [LogBlock.zero]
  else [(decodeLogBlock (readBuffer { data := data, pos := pos })).2, LogBlock.zero]

/-- The log blocks that the loop renders when it starts at offset `pos`. -/
def renderedBlocks (data : List Byte) (pos : Nat) : List LogBlock :=
  completeBlocks data pos ((data.length - pos) / 512) ++
    tailBlocks data (pos + 512 * ((data.length - pos) / 512))

/-- The first read of `main`: `readIntoStruct(file, &header, 512)` on the file
just opened. -/
def headerRead (data : List Byte) : (Option GoError × Header) × File :=
  readIntoStruct Header.binary { data := data, pos := 0 } Header.zero 512

/-- The second read of `main`: `readIntoStruct(file, &checkpoint, cpsize)`. -/
def checkpointRead (data : List Byte) : (Option GoError × Checkpoint) × File :=
  readIntoStruct Checkpoint.binary (headerRead data).2 Checkpoint.zero cpsize

/-- The third read of `main`: `readIntoStruct(file, &checkpoint2, cpsize)`. -/
def checkpoint2Read (data : List Byte) : (Option GoError × Checkpoint) × File :=
  readIntoStruct Checkpoint.binary (checkpointRead data).2 Checkpoint.zero cpsize

/-- What `main` prints before the block loop. -/
def preamble (data : List Byte) : List String :=
  [path ++ " opened\n"] ++ headerReport (headerRead data).1.2 ++
    firstCheckpointReport (checkpointRead data).1.2 ++
    secondCheckpointReport (checkpoint2Read data).1.2 ++
    ["Current position: " ++ fmtd ((checkpoint2Read data).2.pos + 512) ++ "\n"]

/-- The log blocks that `main` renders: none when the read of the second
checkpoint fails, otherwise those of the loop started after the `Seek`. -/
def loopBlocks (data : List Byte) : List LogBlock :=
  if data.length ≤ 1024 then [] else renderedBlocks data (min 1536 data.length + 512)

/-- The header report with every field zero. -/
def zeroHeaderReport : List String :=
  [ rule,
    "Parsed header data:\n",
    "Group Number            : 0\n",
    "First LSN               : 0\n",
    "Archived Log File Number: 0\n" ]

/-- The nine field lines of a checkpoint report with every field zero. -/
def zeroCheckpointLines : List String :=
  [ "Number     : 0x0\n",
    "LSN        : 0x0\n",
    "Offset     : 0x0\n",
    "BufferSize : 0\n",
    "ArchivedLSN: 0x0\n",
    "Checksum1  : 0x0\n",
    "Checksum2  : 0x0\n",
    "CurentFSP  : 0x0\n",
    "Magic      : 0x0\n" ]

/-- The log block report with every field zero and 494 zero data bytes. -/
def zeroLogBlockReport : List String :=
  [ "Header number     : 0x0\n",
    "Is first block    : false\n",
    "Size              : 0\n",
    "Offset            : 0\n",
    "Current checkpoint: 0x0\n",
    "Hdr-size          : 0\n",
    "Checksum          : 0x0\n",
    "Data:\n" ++ " ".intercalate (List.replicate 494 "00") ++ "\n",
    "\n" ]

/-! ## Re-encoding a record

The program never writes a record.  The encoder below is the counterpart of
the decoder in `encoding/binary` (`binary.Write` in big-endian order): every
field is written in declaration order and zero bytes are written for the blank
fields. -/

/-- Go conversion `byte(v)`: the low eight bits. -/
def byte (v : Nat) : Byte := Fin.ofNat v

namespace BigEndian

/-- `binary.BigEndian.PutUint16`: `b[0] = byte(v >> 8); b[1] = byte(v)`. -/
def PutUint16 (v : Nat) : List Byte :=
  [byte (v >>> 8), byte v]

/-- `binary.BigEndian.PutUint32`. -/
def PutUint32 (v : Nat) : List Byte :=
  [byte (v >>> 24), byte (v >>> 16), byte (v >>> 8), byte v]

/-- `binary.BigEndian.PutUint64`. -/
def PutUint64 (v : Nat) : List Byte :=
  [byte (v >>> 56), byte (v >>> 48), byte (v >>> 40), byte (v >>> 32), byte (v >>> 24),
    byte (v >>> 16), byte (v >>> 8), byte v]

end BigEndian

/-- The encoding of a `Header`: the three fields, then zero bytes for the blank
fields of 32 and 464 bytes. -/
def encodeHeader (header : Header) : List Byte :=
  BigEndian.PutUint32 header.GroupNumber ++ BigEndian.PutUint64 header.FirstLSN ++
    BigEndian.PutUint32 header.ArchivedLogFileNumber ++ List.replicate 32 0 ++
    List.replicate 464 0

/-- The encoding of a `Checkpoint`, zero bytes in the blank fields of 256 and
208 bytes. -/
def encodeCheckpoint (checkpoint : Checkpoint) : List Byte :=
  BigEndian.PutUint64 checkpoint.Number ++ BigEndian.PutUint64 checkpoint.LSN ++
    BigEndian.PutUint32 checkpoint.Offset ++ BigEndian.PutUint32 checkpoint.BufferSize ++
    BigEndian.PutUint64 checkpoint.ArchivedLSN ++ List.replicate 256 0 ++
    BigEndian.PutUint32 checkpoint.Checksum1 ++ BigEndian.PutUint32 checkpoint.Checksum2 ++
    BigEndian.PutUint32 checkpoint.CuurentFSP ++ BigEndian.PutUint32 checkpoint.Magic ++
    List.replicate 208 0

/-- The encoding of a `LogBlock`; it has no blank field. -/
def encodeLogBlock (logBlock : LogBlock) : List Byte :=
  BigEndian.PutUint32 logBlock.HeaderNumber ++ BigEndian.PutUint16 logBlock.BlockSize ++
    BigEndian.PutUint16 logBlock.Offset ++
    BigEndian.PutUint32 logBlock.CurrentActiveCheckpoint ++
    BigEndian.PutUint16 logBlock.HdrSize ++ logBlock.Data ++
    BigEndian.PutUint32 logBlock.Checksum

/-! ## Inputs used as examples -/

/-- A synthetic checkpoint buffer: `Number = 0x1`, `LSN = 0x2000`,
`Magic = 0x2B`, the other fields zero and every padding byte `0xEE`. -/
def syntheticCheckpoint : List Byte :=
  [0, 0, 0, 0, 0, 0, 0, 1] ++ [0, 0, 0, 0, 0, 0, 0x20, 0] ++ List.replicate 16 0 ++
    List.replicate 256 0xEE ++ List.replicate 12 0 ++ [0, 0, 0, 0x2B] ++ List.replicate 208 0xEE

/-- A synthetic log block buffer: the bytes `0, 1, 2, ...` modulo 256. -/
def syntheticLogBlock : List Byte :=
  (List.range 512).map (fun i => Fin.ofNat i)

/-- A synthetic header buffer: group number 1, first LSN `0x2000`, archived
file number 3 and every padding byte `0xEE`. -/
def syntheticHeader : List Byte :=
  [0, 0, 0, 1] ++ [0, 0, 0, 0, 0, 0, 0x20, 0] ++ [0, 0, 0, 3] ++ List.replicate 496 0xEE

/-- A file for the driver: zero header and checkpoints, `0xAA` in the reserved
bytes 1536-2047, then the synthetic log block. -/
def syntheticFile : List Byte :=
  List.replicate 1536 0 ++ List.replicate 512 0xAA ++ syntheticLogBlock

/-- What `main` prints before the block loop for a file that starts with 2048
zero bytes. -/
def zeroPreamble : List String :=
  [path ++ " opened\n"] ++ headerReport Header.zero ++ firstCheckpointReport Checkpoint.zero ++
    secondCheckpointReport Checkpoint.zero ++ ["Current position: 2048\n"]

/-- A file that ends after one complete log block. -/
def oneBlockFile : List Byte :=
  List.replicate 2048 0 ++ syntheticLogBlock

/-- A file that ends four bytes into its first log block. -/
def truncatedFile : List Byte :=
  List.replicate 2048 0 ++ [0x80, 0, 0, 1]

/-- A 512-byte buffer with zero bytes from offset 16 on. -/
def zeroPaddedBuffer : List Byte :=
  [0, 0, 0, 1] ++ [0, 0, 0, 0, 0, 0, 0x20, 0] ++ [0, 0, 0, 3] ++ List.replicate 496 0

/-- The synthetic checkpoint buffer with zero bytes in both padding ranges. -/
def syntheticCheckpointZeroPadding : List Byte :=
  [0, 0, 0, 0, 0, 0, 0, 1] ++ [0, 0, 0, 0, 0, 0, 0x20, 0] ++ List.replicate 16 0 ++
    List.replicate 256 0 ++ List.replicate 12 0 ++ [0, 0, 0, 0x2B] ++ List.replicate 208 0

/-- A checkpoint buffer whose only non-zero byte makes `Offset = 10`. -/
def offsetTenCheckpoint : List Byte :=
  List.replicate 16 0 ++ [0, 0, 0, 0x0A] ++ List.replicate 492 0

/-- A file of 2048 bytes whose two checkpoints are `offsetTenCheckpoint`; the
header and the reserved bytes are zero. -/
def offsetTenFile : List Byte :=
  List.replicate 512 0 ++ offsetTenCheckpoint ++ offsetTenCheckpoint ++ List.replicate 512 0

/-! ## Lemmas on the byte order -/

theorem or_shiftLeft_eq (x y k : Nat) (hx : x < 2 ^ k) : x ||| y <<< k = y * 2 ^ k + x := by
  rw [Nat.or_comm, Nat.shiftLeft_eq, Nat.mul_comm y, Nat.mul_add_lt_is_or hx]

theorem Uint16_cons (a b : Byte) : BigEndian.Uint16 [a, b] = a.val * 256 + b.val := by
  have hb := b.isLt
  simp only [BigEndian.Uint16, List.getD_cons_zero, List.getD_cons_succ]
  rw [or_shiftLeft_eq _ _ 8 (by omega)]
  omega

theorem Uint32_cons (a b c d : Byte) :
    BigEndian.Uint32 [a, b, c, d] = ((a.val * 256 + b.val) * 256 + c.val) * 256 + d.val := by
  have ha := a.isLt
  have hb := b.isLt
  have hc := c.isLt
  have hd := d.isLt
  simp only [BigEndian.Uint32, List.getD_cons_zero, List.getD_cons_succ]
  rw [or_shiftLeft_eq _ _ 8 (by omega), or_shiftLeft_eq _ _ 16 (by omega),
    or_shiftLeft_eq _ _ 24 (by omega)]
  omega

theorem Uint64_cons (a b c d e f g h : Byte) :
    BigEndian.Uint64 [a, b, c, d, e, f, g, h] =
      (((((((a.val * 256 + b.val) * 256 + c.val) * 256 + d.val) * 256 + e.val) * 256 + f.val)
        * 256 + g.val) * 256 + h.val) := by
  have ha := a.isLt
  have hb := b.isLt
  have hc := c.isLt
  have hd := d.isLt
  have he := e.isLt
  have hf := f.isLt
  have hg := g.isLt
  have hh := h.isLt
  simp only [BigEndian.Uint64, List.getD_cons_zero, List.getD_cons_succ]
  rw [or_shiftLeft_eq _ _ 8 (by omega), or_shiftLeft_eq _ _ 16 (by omega),
    or_shiftLeft_eq _ _ 24 (by omega), or_shiftLeft_eq _ _ 32 (by omega),
    or_shiftLeft_eq _ _ 40 (by omega), or_shiftLeft_eq _ _ 48 (by omega),
    or_shiftLeft_eq _ _ 56 (by omega)]
  omega

theorem Uint16_eq_beNat (s : List Byte) (h : s.length = 2) : BigEndian.Uint16 s = beNat s := by
  match s, h with
  | [a, b], _ => rw [Uint16_cons]; simp [beNat]

theorem Uint32_eq_beNat (s : List Byte) (h : s.length = 4) : BigEndian.Uint32 s = beNat s := by
  match s, h with
  | [a, b, c, d], _ => rw [Uint32_cons]; simp [beNat]

theorem Uint64_eq_beNat (s : List Byte) (h : s.length = 8) : BigEndian.Uint64 s = beNat s := by
  match s, h with
  | [a, b, c, d, e, f, g, h], _ => rw [Uint64_cons]; simp [beNat]

theorem length_slice (b : List Byte) (lo hi : Nat) (h : hi ≤ b.length) :
    (slice b lo hi).length = hi - lo := by
  simp only [slice, List.length_take, List.length_drop]
  omega

theorem uint16_at (b : List Byte) (o : Nat) (h : o + 2 ≤ b.length) :
    BigEndian.Uint16 (slice b o (o + 2)) = beNat (slice b o (o + 2)) :=
  Uint16_eq_beNat _ (by rw [length_slice _ _ _ h]; omega)

theorem uint32_at (b : List Byte) (o : Nat) (h : o + 4 ≤ b.length) :
    BigEndian.Uint32 (slice b o (o + 4)) = beNat (slice b o (o + 4)) :=
  Uint32_eq_beNat _ (by rw [length_slice _ _ _ h]; omega)

theorem uint64_at (b : List Byte) (o : Nat) (h : o + 8 ≤ b.length) :
    BigEndian.Uint64 (slice b o (o + 8)) = beNat (slice b o (o + 8)) :=
  Uint64_eq_beNat _ (by rw [length_slice _ _ _ h]; omega)

theorem sizeofStruct_HeaderType : sizeofStruct HeaderType = 512 := by decide

theorem sizeofStruct_CheckpointType : sizeofStruct CheckpointType = 512 := by decide

theorem sizeofStruct_LogBlockType : sizeofStruct LogBlockType = 512 := by decide

/-- The field walk of a `Checkpoint` over a buffer of 512 bytes. -/
theorem valueCheckpoint_eq (b : List Byte) (h : b.length = 512) :
    (decoder.valueCheckpoint { buf := b, offset := 0 }).1 =
      { Number := beNat (slice b 0x00 0x08),
        LSN := beNat (slice b 0x08 0x10),
        Offset := beNat (slice b 0x10 0x14),
        BufferSize := beNat (slice b 0x14 0x18),
        ArchivedLSN := beNat (slice b 0x18 0x20),
        Checksum1 := beNat (slice b 0x120 0x124),
        Checksum2 := beNat (slice b 0x124 0x128),
        CuurentFSP := beNat (slice b 0x128 0x12C),
        Magic := beNat (slice b 0x12C 0x130) } := by
  simp only [decoder.valueCheckpoint, decoder.uint64, decoder.uint32, decoder.skip, sizeof]
  rw [uint64_at b 0 (by omega), uint64_at b (0 + 8) (by omega),
    uint32_at b (0 + 8 + 8) (by omega), uint32_at b (0 + 8 + 8 + 4) (by omega),
    uint64_at b (0 + 8 + 8 + 4 + 4) (by omega),
    uint32_at b (0 + 8 + 8 + 4 + 4 + 8 + 256 * 1) (by omega),
    uint32_at b (0 + 8 + 8 + 4 + 4 + 8 + 256 * 1 + 4) (by omega),
    uint32_at b (0 + 8 + 8 + 4 + 4 + 8 + 256 * 1 + 4 + 4) (by omega),
    uint32_at b (0 + 8 + 8 + 4 + 4 + 8 + 256 * 1 + 4 + 4 + 4) (by omega)]

theorem slice_succ (b : List Byte) (o n : Nat) (h : o < b.length) :
    slice b o (o + (n + 1)) = b.getD o 0 :: slice b (o + 1) (o + 1 + n) := by
  have e1 : o + (n + 1) - o = n + 1 := by omega
  have e2 : o + 1 + n - (o + 1) = n := by omega
  simp only [slice, e1, e2]
  rw [List.drop_eq_getElem_cons h, List.take_succ_cons, List.getD_eq_getElem _ _ h]

/-- A byte array is decoded to the bytes under the cursor, in order. -/
theorem byteArray_eq (b : List Byte) (n : Nat) :
    ∀ o, o + n ≤ b.length →
      decoder.byteArray n { buf := b, offset := o } =
        (slice b o (o + n), { buf := b, offset := o + n }) := by
  induction n with
  | zero => intro o _; simp [decoder.byteArray, slice]
  | succ n ih =>
    intro o h
    simp only [decoder.byteArray, decoder.uint8]
    rw [ih (o + 1) (by omega), slice_succ b o n (by omega)]
    have e : o + 1 + n = o + (n + 1) := by omega
    rw [e]

/-- The field walk of a `Header` over a buffer of 512 bytes. -/
theorem valueHeader_eq (b : List Byte) (h : b.length = 512) :
    (decoder.valueHeader { buf := b, offset := 0 }).1 =
      { GroupNumber := beNat (slice b 0 4),
        FirstLSN := beNat (slice b 4 12),
        ArchivedLogFileNumber := beNat (slice b 12 16) } := by
  simp only [decoder.valueHeader, decoder.uint64, decoder.uint32, decoder.skip, sizeof]
  rw [uint32_at b 0 (by omega), uint64_at b (0 + 4) (by omega),
    uint32_at b (0 + 4 + 8) (by omega)]

/-- The field walk of a `LogBlock` over a buffer of 512 bytes. -/
theorem valueLogBlock_eq (b : List Byte) (h : b.length = 512) :
    (decoder.valueLogBlock { buf := b, offset := 0 }).1 =
      { HeaderNumber := beNat (slice b 0 4),
        BlockSize := beNat (slice b 4 6),
        Offset := beNat (slice b 6 8),
        CurrentActiveCheckpoint := beNat (slice b 8 12),
        HdrSize := beNat (slice b 12 14),
        Data := slice b 14 508,
        Checksum := beNat (slice b 508 512) } := by
  unfold decoder.valueLogBlock
  simp only [decoder.uint16, decoder.uint32]
  rw [byteArray_eq b 494 (0 + 4 + 2 + 2 + 4 + 2) (by omega)]
  simp only []
  rw [uint32_at b 0 (by omega), uint16_at b (0 + 4) (by omega),
    uint16_at b (0 + 4 + 2) (by omega), uint32_at b (0 + 4 + 2 + 2) (by omega),
    uint16_at b (0 + 4 + 2 + 2 + 4) (by omega),
    uint32_at b (0 + 4 + 2 + 2 + 4 + 2 + 494) (by omega)]

theorem decodeHeader_eq (b : List Byte) (h : b.length = 512) :
    decodeHeader b = (none, (decoder.valueHeader { buf := b, offset := 0 }).1) := by
  simp only [decodeHeader, binaryRead, Header.binary, sizeofStruct_HeaderType, h,
    Nat.lt_irrefl, if_false]
  rw [List.take_of_length_le (by omega)]

theorem decodeCheckpoint_eq (b : List Byte) (h : b.length = 512) :
    decodeCheckpoint b = (none, (decoder.valueCheckpoint { buf := b, offset := 0 }).1) := by
  simp only [decodeCheckpoint, binaryRead, Checkpoint.binary, sizeofStruct_CheckpointType, h,
    Nat.lt_irrefl, if_false]
  rw [List.take_of_length_le (by omega)]

theorem decodeLogBlock_eq (b : List Byte) (h : b.length = 512) :
    decodeLogBlock b = (none, (decoder.valueLogBlock { buf := b, offset := 0 }).1) := by
  simp only [decodeLogBlock, binaryRead, LogBlock.binary, sizeofStruct_LogBlockType, h,
    Nat.lt_irrefl, if_false]
  rw [List.take_of_length_le (by omega)]

/-! ## The record layouts -/

/-- C1: a 512-byte buffer decoded as a `Checkpoint` gives no error and the
nine fields are the big-endian values of the bytes at the documented offsets
`0x00`, `0x08`, `0x10`, `0x14`, `0x18`, `0x120`, `0x124`, `0x128` and `0x12C`;
so a buffer that carries `Number = 0x1`, `LSN = 0x2000` and `Magic = 0x2B` at
those offsets decodes to exactly these values. -/
theorem checkpoint_fields_at_documented_offsets (b : List Byte) (h : b.length = 512) :
    decodeCheckpoint b =
      (none,
        { Number := beNat (slice b 0x00 0x08),
          LSN := beNat (slice b 0x08 0x10),
          Offset := beNat (slice b 0x10 0x14),
          BufferSize := beNat (slice b 0x14 0x18),
          ArchivedLSN := beNat (slice b 0x18 0x20),
          Checksum1 := beNat (slice b 0x120 0x124),
          Checksum2 := beNat (slice b 0x124 0x128),
          CuurentFSP := beNat (slice b 0x128 0x12C),
          Magic := beNat (slice b 0x12C 0x130) }) ∧
    (beNat (slice b 0x00 0x08) = 0x1 → beNat (slice b 0x08 0x10) = 0x2000 →
      beNat (slice b 0x12C 0x130) = 0x2B →
      (decodeCheckpoint b).2.Number = 0x1 ∧ (decodeCheckpoint b).2.LSN = 0x2000 ∧
        (decodeCheckpoint b).2.Magic = 0x2B) := by
  have e := decodeCheckpoint_eq b h
  rw [valueCheckpoint_eq b h] at e
  refine ⟨e, ?_⟩
  intro h1 h2 h3
  rw [e]
  exact ⟨h1, h2, h3⟩

/-- C1, witness: the synthetic buffer with `0xEE` in both padding ranges
decodes to `Number = 0x1`, `LSN = 0x2000`, `Magic = 0x2B`. -/
theorem checkpoint_fields_at_documented_offsets_witness :
    syntheticCheckpoint.length = 512 ∧
      (decodeCheckpoint syntheticCheckpoint).2.Number = 0x1 ∧
      (decodeCheckpoint syntheticCheckpoint).2.LSN = 0x2000 ∧
      (decodeCheckpoint syntheticCheckpoint).2.Magic = 0x2B :=
  ⟨by decide,
    (checkpoint_fields_at_documented_offsets syntheticCheckpoint (by decide)).2
      (by decide) (by decide) (by decide)⟩

/-- C2: a 512-byte buffer decoded as a `LogBlock` gives no error, the integer
fields are the big-endian values of bytes `[0,4)`, `[4,6)`, `[6,8)`, `[8,12)`,
`[12,14)` and `[508,512)`, and `Data` is the 494 bytes `[14,508)` in order. -/
theorem logBlock_fields_at_offsets (b : List Byte) (h : b.length = 512) :
    decodeLogBlock b =
      (none,
        { HeaderNumber := beNat (slice b 0 4),
          BlockSize := beNat (slice b 4 6),
          Offset := beNat (slice b 6 8),
          CurrentActiveCheckpoint := beNat (slice b 8 12),
          HdrSize := beNat (slice b 12 14),
          Data := slice b 14 508,
          Checksum := beNat (slice b 508 512) }) ∧
    (decodeLogBlock b).2.Data.length = 494 := by
  have e := decodeLogBlock_eq b h
  rw [valueLogBlock_eq b h] at e
  refine ⟨e, ?_⟩
  rw [e]
  exact length_slice b 14 508 (by omega)

/-- C2, witness: the buffer `0, 1, 2, ...` decodes to the fields read at the
stated offsets. -/
theorem logBlock_fields_at_offsets_witness :
    syntheticLogBlock.length = 512 ∧
      (decodeLogBlock syntheticLogBlock).2.HeaderNumber = 0x00010203 ∧
      (decodeLogBlock syntheticLogBlock).2.HdrSize = 0x0C0D ∧
      (decodeLogBlock syntheticLogBlock).2.Checksum = 0xFCFDFEFF ∧
      (decodeLogBlock syntheticLogBlock).2.Data.length = 494 := by
  have w := logBlock_fields_at_offsets syntheticLogBlock (by decide)
  refine ⟨by decide, ?_, ?_, ?_, w.2⟩
  · rw [w.1]; decide
  · rw [w.1]; decide
  · rw [w.1]; decide

theorem slice_slice_zero (b : List Byte) (n lo hi : Nat) (h : hi ≤ n) :
    slice (slice b 0 n) lo hi = slice b lo hi := by
  apply List.ext_getElem?
  intro i
  simp only [slice, List.drop_zero, Nat.sub_zero, List.getElem?_take, List.getElem?_drop]
  by_cases hi1 : i < hi - lo
  · have : lo + i < n := by omega
    simp [hi1, this]
  · simp [hi1]

/-- C3: a 512-byte buffer decoded as a `Header` gives no error, with
`GroupNumber`, `FirstLSN` and `ArchivedLogFileNumber` the big-endian values of
bytes `[0,4)`, `[4,12)` and `[12,16)`; the bytes `[16,512)` reach no field: any
other 512-byte buffer with the same first 16 bytes decodes to the same record. -/
theorem header_fields_at_offsets (b : List Byte) (h : b.length = 512) :
    decodeHeader b =
      (none,
        { GroupNumber := beNat (slice b 0 4),
          FirstLSN := beNat (slice b 4 12),
          ArchivedLogFileNumber := beNat (slice b 12 16) }) ∧
    (∀ b2 : List Byte, b2.length = 512 → slice b2 0 16 = slice b 0 16 →
      decodeHeader b2 = decodeHeader b) := by
  have e := decodeHeader_eq b h
  rw [valueHeader_eq b h] at e
  refine ⟨e, ?_⟩
  intro b2 h2 hs
  have e2 := decodeHeader_eq b2 h2
  rw [valueHeader_eq b2 h2] at e2
  rw [e, e2, ← slice_slice_zero b 16 0 4 (by omega), ← slice_slice_zero b 16 4 12 (by omega),
    ← slice_slice_zero b 16 12 16 (by omega), ← slice_slice_zero b2 16 0 4 (by omega),
    ← slice_slice_zero b2 16 4 12 (by omega), ← slice_slice_zero b2 16 12 16 (by omega), hs]

/-- C3, witness: the synthetic header with `0xEE` padding and the same header
with zero padding decode to group number 1, first LSN `0x2000`, archived file
number 3. -/
theorem header_fields_at_offsets_witness :
    syntheticHeader.length = 512 ∧
      decodeHeader syntheticHeader = (none, ⟨1, 0x2000, 3⟩) ∧
      decodeHeader (slice syntheticHeader 0 16 ++ List.replicate 496 0) =
        decodeHeader syntheticHeader := by
  have w := header_fields_at_offsets syntheticHeader (by decide)
  refine ⟨by decide, ?_, w.2 _ (by decide) (by decide)⟩
  rw [w.1]
  decide

theorem byteArray_offset (n : Nat) :
    ∀ d : decoder, (decoder.byteArray n d).2 = { d with offset := d.offset + n } := by
  induction n with
  | zero => intro d; simp [decoder.byteArray]
  | succ n ih =>
    intro d
    simp only [decoder.byteArray, decoder.uint8]
    rw [ih]
    simp only [decoder.mk.injEq, true_and]
    omega

/-- C4: the encoded size of a `Header`, of a `Checkpoint` and of a `LogBlock`
(the sum of the widths of all fields of the declaration, blank ones included)
is 512 bytes for every value of the record, and the field walk of the decoder
moves the cursor by exactly 512 bytes. -/
theorem record_sizes_are_512 (header : Header) (checkpoint : Checkpoint) (logBlock : LogBlock)
    (d : decoder) :
    Size Header.binary header = 512 ∧ Size Checkpoint.binary checkpoint = 512 ∧
      Size LogBlock.binary logBlock = 512 ∧
      (HeaderType.map (fun f => sizeof f.Typ)).sum = 512 ∧
      (CheckpointType.map (fun f => sizeof f.Typ)).sum = 512 ∧
      (LogBlockType.map (fun f => sizeof f.Typ)).sum = 512 ∧
      (decoder.valueHeader d).2.offset = d.offset + 512 ∧
      (decoder.valueCheckpoint d).2.offset = d.offset + 512 ∧
      (decoder.valueLogBlock d).2.offset = d.offset + 512 := by
  refine ⟨sizeofStruct_HeaderType, sizeofStruct_CheckpointType, sizeofStruct_LogBlockType,
    by decide, by decide, by decide, ?_, ?_, ?_⟩
  · simp only [decoder.valueHeader, decoder.uint64, decoder.uint32, decoder.skip, sizeof]
  · simp only [decoder.valueCheckpoint, decoder.uint64, decoder.uint32, decoder.skip, sizeof]
  · unfold decoder.valueLogBlock
    simp only [decoder.uint16, decoder.uint32]
    rw [byteArray_offset]

/-! ## The first-block flag -/

theorem slice4 (b : List Byte) (o : Nat) (h : o + 4 ≤ b.length) :
    slice b o (o + 4) = [b.getD o 0, b.getD (o + 1) 0, b.getD (o + 2) 0, b.getD (o + 3) 0] := by
  rw [slice_succ b o 3 (by omega), slice_succ b (o + 1) 2 (by omega),
    slice_succ b (o + 1 + 1) 1 (by omega), slice_succ b (o + 1 + 1 + 1) 0 (by omega)]
  simp [slice]

theorem and_firstBlockMask (x : Nat) (hx : x < 2 ^ 32) :
    x &&& 0x80000000 = 0x80000000 ↔ 2 ^ 31 ≤ x := by
  have e : (0x80000000 : Nat) = 2 ^ 31 := by norm_num
  rw [e]
  constructor
  · intro hand
    have t : (x &&& 2 ^ 31).testBit 31 = true := by rw [hand]; exact Nat.testBit_two_pow_self
    rw [Nat.testBit_and, Nat.testBit_two_pow_self, Bool.and_true, Nat.testBit_to_div_mod] at t
    have t2 := of_decide_eq_true t
    omega
  · intro hle
    apply Nat.eq_of_testBit_eq
    intro i
    rw [Nat.testBit_and, Nat.testBit_two_pow]
    by_cases hi : 31 = i
    · subst hi
      have : x / 2 ^ 31 % 2 = 1 := by omega
      rw [Nat.testBit_to_div_mod, this]
      simp
    · simp [hi]

/-- C5: for a 32-bit header number the `Is first block` value
`h & 0x80000000 == 0x80000000` is true exactly when `h >= 2^31`; it is true for
`0x80000001` and false for `0x00000001`; and for the block decoded from a
512-byte buffer it is true exactly when the first byte is at least `0x80`. -/
theorem isFirstBlock_iff_msb (hn : Nat) (hlt : hn < 2 ^ 32) :
    (isFirstBlock hn = true ↔ 2 ^ 31 ≤ hn) ∧
    isFirstBlock 0x80000001 = true ∧ isFirstBlock 0x00000001 = false ∧
    (∀ b : List Byte, b.length = 512 →
      (isFirstBlock (decodeLogBlock b).2.HeaderNumber = true ↔ 0x80 ≤ (b.getD 0 0).val)) := by
  refine ⟨?_, by decide, by decide, ?_⟩
  · simp only [isFirstBlock, firstBlockMask, beq_iff_eq]
    exact and_firstBlockMask hn hlt
  · intro b hb
    have e := decodeLogBlock_eq b hb
    rw [valueLogBlock_eq b hb] at e
    rw [e]
    simp only [isFirstBlock, firstBlockMask, beq_iff_eq]
    have s4 := slice4 b 0 (by omega)
    simp only [Nat.zero_add] at s4
    rw [s4]
    have h0 := (b.getD 0 0).isLt
    have h1 := (b.getD 1 0).isLt
    have h2 := (b.getD 2 0).isLt
    have h3 := (b.getD 3 0).isLt
    have hv : beNat [b.getD 0 0, b.getD 1 0, b.getD 2 0, b.getD 3 0] =
        (((b.getD 0 0).val * 256 + (b.getD 1 0).val) * 256 + (b.getD 2 0).val) * 256 +
          (b.getD 3 0).val := by
      simp [beNat]
    rw [hv, and_firstBlockMask _ (by omega)]
    omega

/-- C5, witness: header number `0x80000001` is below `2^32`, at least `2^31`
and flagged as a first block. -/
theorem isFirstBlock_iff_msb_witness :
    0x80000001 < 2 ^ 32 ∧ (isFirstBlock 0x80000001 = true ↔ 2 ^ 31 ≤ 0x80000001) ∧
      isFirstBlock 0x80000001 = true :=
  ⟨by decide, (isFirstBlock_iff_msb 0x80000001 (by decide)).1,
    (isFirstBlock_iff_msb 0x80000001 (by decide)).1.mpr (by decide)⟩

/-! ## Reading from the file -/

theorem readNextBytes_eof (file : File) (number : Nat) (h : file.data.length ≤ file.pos)
    (hn : 0 < number) : readNextBytes file number = (([], some .EOF), file) := by
  have e : file.data.length - file.pos = 0 := by omega
  simp [readNextBytes, File.Read, e, hn]

theorem readNextBytes_ok (file : File) (number : Nat) (h : file.pos < file.data.length) :
    readNextBytes file number =
      ((slice file.data file.pos (file.pos + min number (file.data.length - file.pos)) ++
          List.replicate (number - min number (file.data.length - file.pos)) 0, none),
        { file with pos := file.pos + min number (file.data.length - file.pos) }) := by
  have e : ¬ (min number (file.data.length - file.pos) = 0 ∧ 0 < number) := by omega
  simp only [readNextBytes, File.Read, List.length_replicate, e, if_false, List.drop_replicate]

theorem binaryRead_ok {α : Type} (t : BinaryData α) (ht : sizeofStruct t.typ = 512)
    (b : List Byte) (hb : b.length = 512) (dest : α) :
    binaryRead t b dest = (none, (t.value { buf := b, offset := 0 }).1) := by
  simp only [binaryRead, ht, hb, Nat.lt_irrefl, if_false]
  rw [List.take_of_length_le (by omega)]

theorem readIntoStruct_eof {α : Type} (t : BinaryData α) (file : File) (dest : α)
    (h : file.data.length ≤ file.pos) :
    readIntoStruct t file dest 512 = ((some .EOF, dest), file) := by
  simp only [readIntoStruct, readNextBytes_eof file 512 h (by omega)]

theorem length_readBuffer (file : File) (h : file.pos < file.data.length) :
    (readBuffer file).length = 512 := by
  simp only [readBuffer, List.length_append, List.length_replicate]
  rw [length_slice _ _ _ (by omega)]
  omega

theorem readIntoStruct_ok {α : Type} (t : BinaryData α) (ht : sizeofStruct t.typ = 512)
    (file : File) (dest : α) (h : file.pos < file.data.length) :
    readIntoStruct t file dest 512 =
      ((none, (t.value { buf := readBuffer file, offset := 0 }).1),
        { file with pos := file.pos + min 512 (file.data.length - file.pos) }) := by
  simp only [readIntoStruct, readNextBytes_ok file 512 h]
  have hb := binaryRead_ok t ht (readBuffer file) (length_readBuffer file h) dest
  simp only [readBuffer] at hb
  rw [hb]
  simp only [readBuffer]

theorem readBuffer_full (file : File) (h : file.pos + 512 ≤ file.data.length) :
    readBuffer file = slice file.data file.pos (file.pos + 512) := by
  have e : min 512 (file.data.length - file.pos) = 512 := by omega
  simp [readBuffer, e]

/-! ## The block loop -/

theorem blockLoop_succ_none (fuel : Nat) (file : File) :
    blockLoop (fuel + 1) file none =
      (blockLoop fuel (readIntoStruct LogBlock.binary file LogBlock.zero 512).2
          (readIntoStruct LogBlock.binary file LogBlock.zero 512).1.1).map
        (fun rest =>
          logBlockReport (readIntoStruct LogBlock.binary file LogBlock.zero 512).1.2 ++ rest) := by
  simp only [blockLoop, if_true]

theorem blockLoop_succ_some (fuel : Nat) (file : File) (e : GoError) :
    blockLoop (fuel + 1) file (some e) = some [] := by
  simp only [blockLoop, reduceCtorEq, if_false]

/-- More iterations than needed do not change what the loop prints. -/
theorem blockLoop_mono (fuel : Nat) :
    ∀ (file : File) (err : Option GoError) (out : List String),
      blockLoop fuel file err = some out → ∀ k, blockLoop (fuel + k) file err = some out := by
  induction fuel with
  | zero => intro file err out h; simp [blockLoop] at h
  | succ fuel ih =>
    intro file err out h k
    have e : fuel + 1 + k = (fuel + k) + 1 := by omega
    rw [e]
    cases err with
    | some e => rw [blockLoop_succ_some] at h ⊢; exact h
    | none =>
      rw [blockLoop_succ_none] at h ⊢
      rw [Option.map_eq_some'] at h
      obtain ⟨rest, hrest, hout⟩ := h
      rw [ih _ _ _ hrest k]
      simp [hout]

theorem completeBlocks_succ (data : List Byte) (pos n : Nat) :
    completeBlocks data pos (n + 1) =
      (decodeLogBlock (slice data pos (pos + 512))).2 :: completeBlocks data (pos + 512) n := by
  have hm : ∀ l : List Nat,
      List.map (fun k => (decodeLogBlock (slice data (pos + 512 * k) (pos + 512 * k + 512))).2)
          (List.map Nat.succ l) =
        List.map (fun k =>
          (decodeLogBlock (slice data (pos + 512 + 512 * k) (pos + 512 + 512 * k + 512))).2) l := by
    intro l
    rw [List.map_map]
    apply List.map_congr_left
    intro k _
    have e : pos + 512 * (k + 1) = pos + 512 + 512 * k := by omega
    simp only [Function.comp, Nat.succ_eq_add_one, e]
  rw [completeBlocks, List.range_succ_eq_map, List.map_cons, hm]
  rfl

theorem readIntoStruct_logBlock_full (data : List Byte) (pos : Nat)
    (h : pos + 512 ≤ data.length) :
    readIntoStruct LogBlock.binary { data := data, pos := pos } LogBlock.zero 512 =
      ((none, (decodeLogBlock (slice data pos (pos + 512))).2),
        { data := data, pos := pos + 512 }) := by
  rw [readIntoStruct_ok LogBlock.binary sizeofStruct_LogBlockType _ _ (by simp only; omega)]
  rw [readBuffer_full _ (by simp only; omega)]
  have e : min 512 (data.length - pos) = 512 := by omega
  simp only [e]
  rw [decodeLogBlock_eq _ (by rw [length_slice _ _ _ (by omega)]; omega)]
  simp only [LogBlock.binary]

theorem blockLoop_complete (data : List Byte) (n : Nat) :
    ∀ (pos fuel : Nat), pos + 512 * n ≤ data.length →
      blockLoop (fuel + n) { data := data, pos := pos } none =
        (blockLoop fuel { data := data, pos := pos + 512 * n } none).map
          (fun rest => (completeBlocks data pos n).flatMap logBlockReport ++ rest) := by
  induction n with
  | zero => intro pos fuel _; simp [completeBlocks]
  | succ n ih =>
    intro pos fuel h
    have e : fuel + (n + 1) = (fuel + n) + 1 := by omega
    rw [e, blockLoop_succ_none, readIntoStruct_logBlock_full data pos (by omega)]
    simp only []
    rw [ih (pos + 512) fuel (by omega), completeBlocks_succ]
    have e2 : pos + 512 + 512 * n = pos + 512 * (n + 1) := by omega
    rw [e2, Option.map_map]
    simp only [List.flatMap_cons, List.append_assoc]
    rfl

theorem blockLoop_eof (data : List Byte) (pos fuel : Nat) (h : data.length ≤ pos) :
    blockLoop (fuel + 2) { data := data, pos := pos } none =
      some ((tailBlocks data pos).flatMap logBlockReport) := by
  rw [blockLoop_succ_none, readIntoStruct_eof _ _ _ (by simpa using h)]
  simp only [blockLoop_succ_some, tailBlocks, h, if_true, Option.map_some', List.flatMap_cons,
    List.flatMap_nil]

theorem blockLoop_short (data : List Byte) (pos fuel : Nat) (h1 : pos < data.length)
    (h2 : data.length < pos + 512) :
    blockLoop (fuel + 3) { data := data, pos := pos } none =
      some ((tailBlocks data pos).flatMap logBlockReport) := by
  rw [blockLoop_succ_none,
    readIntoStruct_ok LogBlock.binary sizeofStruct_LogBlockType _ _ (by simpa using h1)]
  simp only []
  have e : min 512 (data.length - pos) = data.length - pos := by omega
  rw [e, blockLoop_eof data _ fuel (by omega)]
  have hn : ¬ data.length ≤ pos := by omega
  have hz : data.length ≤ pos + (data.length - pos) := by omega
  simp only [tailBlocks, hn, hz, if_true, if_false, Option.map_some']
  rw [decodeLogBlock_eq _ (length_readBuffer _ (by simpa using h1))]
  simp only [LogBlock.binary, List.flatMap_cons, List.flatMap_nil, List.append_nil]

/-- What the block loop prints when it is entered without an error. -/
theorem blockLoop_eq (data : List Byte) (pos fuel : Nat) (hf : data.length - pos + 2 ≤ fuel) :
    blockLoop fuel { data := data, pos := pos } none =
      some ((renderedBlocks data pos).flatMap logBlockReport) := by
  have hdiv := Nat.div_add_mod (data.length - pos) 512
  have hmod := Nat.mod_lt (data.length - pos) (by omega : 512 > 0)
  obtain ⟨f0, hf0⟩ : ∃ f0, fuel = f0 + (data.length - pos) / 512 :=
    ⟨fuel - (data.length - pos) / 512, by omega⟩
  by_cases hle : data.length ≤ pos
  · have hz : (data.length - pos) / 512 = 0 := by omega
    obtain ⟨f1, hf1⟩ : ∃ f1, fuel = f1 + 2 := ⟨fuel - 2, by omega⟩
    rw [hf1, blockLoop_eof data pos f1 hle, renderedBlocks, hz]
    simp only [completeBlocks, List.range_zero, List.map_nil, List.nil_append, Nat.mul_zero,
      Nat.add_zero]
  · rw [hf0, blockLoop_complete data ((data.length - pos) / 512) pos f0 (by omega), renderedBlocks]
    by_cases hr : (data.length - pos) % 512 = 0
    · obtain ⟨f1, hf1⟩ : ∃ f1, f0 = f1 + 2 := ⟨f0 - 2, by omega⟩
      rw [hf1, blockLoop_eof data _ f1 (by omega)]
      simp only [Option.map_some', List.flatMap_append]
    · obtain ⟨f1, hf1⟩ : ∃ f1, f0 = f1 + 3 := ⟨f0 - 3, by omega⟩
      rw [hf1, blockLoop_short data _ f1 (by omega) (by omega)]
      simp only [Option.map_some', List.flatMap_append]

/-! ## The driver -/

theorem readIntoStruct_full {α : Type} (t : BinaryData α) (ht : sizeofStruct t.typ = 512)
    (data : List Byte) (pos : Nat) (dest : α) (h : pos + 512 ≤ data.length) :
    readIntoStruct t { data := data, pos := pos } dest 512 =
      ((none, (binaryRead t (slice data pos (pos + 512)) dest).2),
        { data := data, pos := pos + 512 }) := by
  rw [readIntoStruct_ok t ht _ _ (by simp only; omega)]
  rw [readBuffer_full _ (by simp only; omega)]
  have e : min 512 (data.length - pos) = 512 := by omega
  simp only [e]
  rw [binaryRead_ok t ht _ (by rw [length_slice _ _ _ (by omega)]; omega)]

/-- What `main` prints for a file that holds the whole 2048-byte preamble. -/
theorem dump_eq (data : List Byte) (h : 2048 ≤ data.length) :
    dump { data := data, pos := 0 } =
      some ([path ++ " opened\n"] ++ headerReport (decodeHeader (slice data 0 512)).2 ++
        firstCheckpointReport (decodeCheckpoint (slice data 512 1024)).2 ++
        secondCheckpointReport (decodeCheckpoint (slice data 1024 1536)).2 ++
        ["Current position: 2048\n"] ++
        (renderedBlocks data 2048).flatMap logBlockReport) := by
  unfold dump
  rw [readIntoStruct_full Header.binary sizeofStruct_HeaderType data 0 _ (by omega)]
  dsimp only
  rw [show cpsize = 512 from rfl,
    readIntoStruct_full Checkpoint.binary sizeofStruct_CheckpointType data (0 + 512) _ (by omega)]
  dsimp only
  rw [readIntoStruct_full Checkpoint.binary sizeofStruct_CheckpointType data (0 + 512 + 512) _
    (by omega)]
  dsimp only [File.Seek]
  rw [blockLoop_eq data _ _ (by omega)]
  rw [if_pos rfl, Option.map_some']
  have e : fmtd (0 + 512 + 512 + 512 + 512) = "2048" := by decide
  rw [e]
  rfl

theorem slice_congr (a b : List Byte) (lo hi : Nat)
    (h : ∀ i, lo ≤ i → i < hi → a[i]? = b[i]?) : slice a lo hi = slice b lo hi := by
  apply List.ext_getElem?
  intro i
  simp only [slice, List.getElem?_take, List.getElem?_drop]
  by_cases hi1 : i < hi - lo
  · simp only [hi1, if_true]
    exact h (lo + i) (by omega) (by omega)
  · simp only [hi1, if_false]

theorem getElem?_completeBlocks (data : List Byte) (pos n k : Nat) (h : k < n) :
    (completeBlocks data pos n)[k]? =
      some (decodeLogBlock (slice data (pos + 512 * k) (pos + 512 * k + 512))).2 := by
  simp only [completeBlocks, List.getElem?_map, List.getElem?_range h, Option.map_some']

theorem renderedBlocks_congr (data data2 : List Byte) (pos : Nat)
    (hl : data2.length = data.length) (h : ∀ i, pos ≤ i → data2[i]? = data[i]?) :
    renderedBlocks data2 pos = renderedBlocks data pos := by
  simp only [renderedBlocks, completeBlocks, tailBlocks, readBuffer, hl]
  congr 1
  · apply List.map_congr_left
    intro k _
    rw [slice_congr data2 data _ _ (fun i h1 _ => h i (by omega))]
  · rw [slice_congr data2 data _ _ (fun i h1 _ => h i (by omega))]

/-- The nine prints of block `k` inside what is printed for a list of blocks. -/
theorem take_drop_flatMap_logBlockReport (blocks : List LogBlock) :
    ∀ (k : Nat) (x : LogBlock), blocks[k]? = some x →
      ((blocks.flatMap logBlockReport).drop (9 * k)).take 9 = logBlockReport x := by
  induction blocks with
  | nil => intro k x h; simp at h
  | cons y ys ih =>
    intro k x h
    cases k with
    | zero =>
      simp only [List.getElem?_cons_zero, Option.some.injEq] at h
      subst h
      simp only [List.flatMap_cons, Nat.mul_zero, List.drop_zero]
      rw [List.take_append_of_le_length (by simp [logBlockReport])]
      exact List.take_of_length_le (by simp [logBlockReport])
    | succ k =>
      simp only [List.getElem?_cons_succ] at h
      have e : 9 * (k + 1) = (logBlockReport y).length + 9 * k := by
        simp [logBlockReport]; omega
      rw [List.flatMap_cons, e, List.drop_append]
      exact ih k x h

/-- C6: for a file of at least 2048 bytes, `main` prints the report of the
header decoded from bytes 0-511, of checkpoint 1 decoded from bytes 512-1023
and of checkpoint 2 decoded from bytes 1024-1535, the position 2048, and then
the reports of a list of log blocks whose `k`-th entry, whenever
`2048 + 512*(k+1)` is within the file, is the decoding of the 512 bytes at
offset `2048 + 512*k` (these are the nine prints that start at print
`31 + 9*k`); bytes 1536-2047 are never decoded: a file of the same length that
differs only there gives the same output. -/
theorem driver_decodes_documented_regions (data : List Byte) (h : 2048 ≤ data.length) :
    ∃ blocks : List LogBlock,
      main (some data) =
        some ([path ++ " opened\n"] ++ headerReport (decodeHeader (slice data 0 512)).2 ++
          firstCheckpointReport (decodeCheckpoint (slice data 512 1024)).2 ++
          secondCheckpointReport (decodeCheckpoint (slice data 1024 1536)).2 ++
          ["Current position: 2048\n"] ++ blocks.flatMap logBlockReport) ∧
      (∀ k, 2048 + 512 * (k + 1) ≤ data.length →
        blocks[k]? =
          some (decodeLogBlock (slice data (2048 + 512 * k) (2048 + 512 * k + 512))).2) ∧
      (∀ k out, 2048 + 512 * (k + 1) ≤ data.length → main (some data) = some out →
        (out.drop (31 + 9 * k)).take 9 =
          logBlockReport (decodeLogBlock (slice data (2048 + 512 * k) (2048 + 512 * k + 512))).2) ∧
      (∀ data2 : List Byte, data2.length = data.length →
        (∀ i, i < 1536 ∨ 2048 ≤ i → data2[i]? = data[i]?) →
        main (some data2) = main (some data)) := by
  have hk : ∀ k, 2048 + 512 * (k + 1) ≤ data.length →
      (renderedBlocks data 2048)[k]? =
        some (decodeLogBlock (slice data (2048 + 512 * k) (2048 + 512 * k + 512))).2 := by
    intro k hk
    have hlt : k < (data.length - 2048) / 512 := by omega
    have hlen : k < (completeBlocks data 2048 ((data.length - 2048) / 512)).length := by
      simpa [completeBlocks] using hlt
    rw [renderedBlocks, List.getElem?_append_left hlen]
    exact getElem?_completeBlocks data 2048 _ k hlt
  refine ⟨renderedBlocks data 2048, dump_eq data h, hk, ?_, ?_⟩
  · intro k out hle hout
    have e := dump_eq data h
    simp only [main] at hout
    rw [e, Option.some.injEq] at hout
    subst hout
    have e31 : 31 + 9 * k =
        ([path ++ " opened\n"] ++ headerReport (decodeHeader (slice data 0 512)).2 ++
          firstCheckpointReport (decodeCheckpoint (slice data 512 1024)).2 ++
          secondCheckpointReport (decodeCheckpoint (slice data 1024 1536)).2 ++
          ["Current position: 2048\n"]).length + 9 * k := by
      simp [headerReport, firstCheckpointReport, secondCheckpointReport]
    rw [e31, List.drop_append]
    exact take_drop_flatMap_logBlockReport _ k _ (hk k hle)
  · intro data2 hl hagree
    simp only [main]
    rw [dump_eq data h, dump_eq data2 (by omega),
      slice_congr data2 data 0 512 (fun i _ _ => hagree i (by omega)),
      slice_congr data2 data 512 1024 (fun i _ _ => hagree i (by omega)),
      slice_congr data2 data 1024 1536 (fun i _ _ => hagree i (by omega)),
      renderedBlocks_congr data data2 2048 hl (fun i hi => hagree i (by omega))]

theorem slice_append_right (a b : List Byte) (n m : Nat) (hn : a.length = n)
    (hm : n + b.length = m) : slice (a ++ b) n m = b := by
  subst hn hm
  simp [slice]

theorem length_syntheticLogBlock : syntheticLogBlock.length = 512 := by
  rw [syntheticLogBlock, List.length_map, List.length_range]

theorem length_syntheticFile : syntheticFile.length = 2560 := by
  rw [syntheticFile, List.length_append, List.length_append, List.length_replicate,
    List.length_replicate, length_syntheticLogBlock]

/-- C6, witness: on the synthetic file the first block report is that of the
512 bytes at offset 2048, and zeroing the reserved bytes 1536-2047 leaves the
output as it is. -/
theorem driver_decodes_documented_regions_witness :
    2048 ≤ syntheticFile.length ∧
      main (some (List.replicate 2048 0 ++ syntheticLogBlock)) = main (some syntheticFile) ∧
      (∀ out, main (some syntheticFile) = some out →
        (out.drop 31).take 9 = logBlockReport (decodeLogBlock syntheticLogBlock).2) := by
  have hlen : 2048 ≤ syntheticFile.length := by rw [length_syntheticFile]; omega
  obtain ⟨_, _, _, h3, h4⟩ := driver_decodes_documented_regions syntheticFile hlen
  have l1 : (List.replicate 2048 (0 : Byte)).length = 2048 := List.length_replicate _ _
  have l2 : (List.replicate 1536 (0 : Byte) ++ List.replicate 512 0xAA).length = 2048 := by
    rw [List.length_append, List.length_replicate, List.length_replicate]
  refine ⟨hlen, h4 _ ?_ ?_, ?_⟩
  · rw [length_syntheticFile, List.length_append, l1, length_syntheticLogBlock]
  · intro i hi
    rcases hi with hi | hi
    · rw [List.getElem?_append_left (by omega), syntheticFile, List.append_assoc,
        List.getElem?_append_left (by rw [List.length_replicate]; exact hi),
        List.getElem?_replicate, List.getElem?_replicate, if_pos hi, if_pos (by omega)]
    · rw [List.getElem?_append_right (by omega), syntheticFile,
        List.getElem?_append_right (by omega), l1, l2]
  · intro out hout
    have e : slice syntheticFile (2048 + 512 * 0) (2048 + 512 * 0 + 512) = syntheticLogBlock :=
      slice_append_right _ _ _ _ l2 (by rw [length_syntheticLogBlock])
    have w := h3 0 out (by rw [length_syntheticFile]) hout
    rw [e] at w
    exact w

/-! ## End of the file: the last reports of the loop -/

theorem renderedBlocks_exact (data : List Byte) (pos n : Nat)
    (h : data.length = pos + 512 * n) :
    renderedBlocks data pos = completeBlocks data pos n ++ [LogBlock.zero] := by
  have e : (data.length - pos) / 512 = n := by omega
  have hle : data.length ≤ pos + 512 * n := by omega
  rw [renderedBlocks, e, tailBlocks, if_pos hle]

theorem renderedBlocks_short (data : List Byte) (pos n r : Nat)
    (h : data.length = pos + 512 * n + r) (h0 : 0 < r) (hr : r < 512) :
    renderedBlocks data pos =
      completeBlocks data pos n ++
        [(decodeLogBlock (slice data (pos + 512 * n) (pos + 512 * n + r) ++
            List.replicate (512 - r) 0)).2, LogBlock.zero] := by
  have e : (data.length - pos) / 512 = n := by omega
  have hle : ¬ data.length ≤ pos + 512 * n := by omega
  have hm : min 512 (data.length - (pos + 512 * n)) = r := by omega
  rw [renderedBlocks, e, tailBlocks, if_neg hle, readBuffer]
  simp only [hm]

theorem slice_append_left (a b : List Byte) (lo hi : Nat) (h : hi ≤ a.length) :
    slice (a ++ b) lo hi = slice a lo hi := by
  apply slice_congr
  intro i _ h2
  rw [List.getElem?_append_left (by omega)]

theorem slice_replicate_zero (n lo hi : Nat) (h : hi ≤ n) :
    slice (List.replicate n (0 : Byte)) lo hi = List.replicate (hi - lo) 0 := by
  simp only [slice, List.drop_replicate, List.take_replicate]
  congr 1
  omega

theorem decodeHeader_zero : decodeHeader (List.replicate 512 0) = (none, Header.zero) := by
  decide

theorem decodeCheckpoint_zero :
    decodeCheckpoint (List.replicate 512 0) = (none, Checkpoint.zero) := by
  decide

/-- What `main` prints for a file of 2048 zero bytes followed by `rest`. -/
theorem main_zero_preamble (rest : List Byte) :
    main (some (List.replicate 2048 0 ++ rest)) =
      some (zeroPreamble ++
        (renderedBlocks (List.replicate 2048 0 ++ rest) 2048).flatMap logBlockReport) := by
  have l : (List.replicate 2048 (0 : Byte)).length = 2048 := List.length_replicate _ _
  simp only [main]
  rw [dump_eq _ (by rw [List.length_append, l]; omega),
    slice_append_left _ _ _ _ (by omega), slice_append_left _ _ _ _ (by omega),
    slice_append_left _ _ _ _ (by omega), slice_replicate_zero _ _ _ (by omega),
    slice_replicate_zero _ _ _ (by omega), slice_replicate_zero _ _ _ (by omega),
    decodeHeader_zero, decodeCheckpoint_zero, zeroPreamble]

theorem decodeLogBlock_truncated :
    decodeLogBlock ([0x80, 0, 0, 1] ++ List.replicate 508 0) =
      (none, { LogBlock.zero with HeaderNumber := 0x80000001 }) := by
  have hlen : ([0x80, 0, 0, 1] ++ List.replicate 508 (0 : Byte)).length = 512 := by decide
  rw [decodeLogBlock_eq _ hlen, valueLogBlock_eq _ hlen]
  decide

/-- C7 (the code departs from the claim): for the file of 2048 zero bytes
followed by exactly one complete log block, the loop prints two block reports:
that of the block and, after it, that of the zero `LogBlock{}` of the read
that met the end of the file. -/
theorem exact_boundary_prints_extra_report :
    main (some oneBlockFile) =
      some (zeroPreamble ++
        (logBlockReport (decodeLogBlock syntheticLogBlock).2 ++ logBlockReport LogBlock.zero)) := by
  have l : (List.replicate 2048 (0 : Byte)).length = 2048 := List.length_replicate _ _
  rw [oneBlockFile, main_zero_preamble,
    renderedBlocks_exact _ 2048 1 (by rw [List.length_append, l, length_syntheticLogBlock]),
    completeBlocks_succ,
    slice_append_right _ _ _ _ l (by rw [length_syntheticLogBlock])]
  simp only [completeBlocks, List.range_zero, List.map_nil, List.cons_append, List.nil_append,
    List.flatMap_cons, List.flatMap_nil, List.append_nil]

/-- C8 (the code departs from the claim): for the file of 2048 zero bytes
followed by the four bytes `80 00 00 01`, the loop prints the report of a block
built from these four bytes and 508 zero bytes (header number `0x80000001`),
and then the report of the zero `LogBlock{}`. -/
theorem truncated_block_is_rendered :
    main (some truncatedFile) =
      some (zeroPreamble ++
        (logBlockReport { LogBlock.zero with HeaderNumber := 0x80000001 } ++
          logBlockReport LogBlock.zero)) := by
  have l : (List.replicate 2048 (0 : Byte)).length = 2048 := List.length_replicate _ _
  have e : (decodeLogBlock ([0x80, 0, 0, 1] ++ List.replicate (512 - 4) 0)).2 =
      { LogBlock.zero with HeaderNumber := 0x80000001 } := by
    rw [show 512 - 4 = 508 from rfl, decodeLogBlock_truncated]
  have hs : slice (List.replicate 2048 (0 : Byte) ++ [0x80, 0, 0, 1]) (2048 + 512 * 0)
      (2048 + 512 * 0 + 4) = [0x80, 0, 0, 1] := slice_append_right _ _ _ _ l rfl
  rw [truncatedFile, main_zero_preamble,
    renderedBlocks_short _ 2048 0 4 (by rw [List.length_append, l]; rfl) (by omega) (by omega),
    hs, e]
  simp only [completeBlocks, List.range_zero, List.map_nil, List.nil_append,
    List.flatMap_cons, List.flatMap_nil, List.append_nil]

/-- C9 (the code departs from the claim): with 4 bytes left before the end of
the file, `readIntoStruct` returns no error and a `LogBlock` populated from the
4 bytes followed by the zero bytes of the fresh buffer; the position moves by
4. -/
theorem short_read_returns_populated_record :
    readIntoStruct LogBlock.binary { data := [0x80, 0, 0, 1], pos := 0 } LogBlock.zero 512 =
      ((none, { LogBlock.zero with HeaderNumber := 0x80000001 }),
        { data := [0x80, 0, 0, 1], pos := 4 }) := by
  have hb : readBuffer { data := [0x80, 0, 0, 1], pos := 0 } =
      [0x80, 0, 0, 1] ++ List.replicate 508 0 := by decide
  have hd := decodeLogBlock_truncated
  rw [decodeLogBlock_eq _ (by decide)] at hd
  rw [readIntoStruct_ok LogBlock.binary sizeofStruct_LogBlockType _ _ (by decide), hb]
  simp only [LogBlock.binary]
  rw [(Prod.mk.inj hd).2]
  rfl

/-! ## Re-encoding a record: the round trip -/

theorem byte_val (v : Nat) : (byte v).val = v % 256 := rfl

theorem PutUint16_beNat (s : List Byte) (h : s.length = 2) :
    BigEndian.PutUint16 (beNat s) = s := by
  match s, h with
  | [a, b], _ =>
    have ha := a.isLt
    have hb := b.isLt
    simp only [BigEndian.PutUint16, beNat, List.foldl_cons, List.foldl_nil, Nat.zero_mul,
      Nat.zero_add, Nat.shiftRight_eq_div_pow, List.cons.injEq, and_true]
    refine ⟨Fin.ext ?_, Fin.ext ?_⟩ <;> rw [byte_val] <;> omega

theorem PutUint32_beNat (s : List Byte) (h : s.length = 4) :
    BigEndian.PutUint32 (beNat s) = s := by
  match s, h with
  | [a, b, c, d], _ =>
    have ha := a.isLt
    have hb := b.isLt
    have hc := c.isLt
    have hd := d.isLt
    simp only [BigEndian.PutUint32, beNat, List.foldl_cons, List.foldl_nil, Nat.zero_mul,
      Nat.zero_add, Nat.shiftRight_eq_div_pow, List.cons.injEq, and_true]
    refine ⟨Fin.ext ?_, Fin.ext ?_, Fin.ext ?_, Fin.ext ?_⟩ <;> rw [byte_val] <;> omega

theorem PutUint64_beNat (s : List Byte) (h : s.length = 8) :
    BigEndian.PutUint64 (beNat s) = s := by
  match s, h with
  | [a, b, c, d, e, f, g, i], _ =>
    have ha := a.isLt
    have hb := b.isLt
    have hc := c.isLt
    have hd := d.isLt
    have he := e.isLt
    have hf := f.isLt
    have hg := g.isLt
    have hi := i.isLt
    simp only [BigEndian.PutUint64, beNat, List.foldl_cons, List.foldl_nil, Nat.zero_mul,
      Nat.zero_add, Nat.shiftRight_eq_div_pow, List.cons.injEq, and_true]
    refine ⟨Fin.ext ?_, Fin.ext ?_, Fin.ext ?_, Fin.ext ?_, Fin.ext ?_, Fin.ext ?_, Fin.ext ?_,
      Fin.ext ?_⟩ <;> rw [byte_val] <;> omega

theorem slice_append_slice (b : List Byte) (lo mid hi : Nat) (h1 : lo ≤ mid) (h2 : mid ≤ hi) :
    slice b lo mid ++ slice b mid hi = slice b lo hi := by
  apply List.ext_getElem?
  intro i
  simp only [slice, List.getElem?_append, List.getElem?_take, List.getElem?_drop,
    List.length_take, List.length_drop]
  by_cases hb : lo + i < b.length
  · by_cases hi1 : i < mid - lo
    · have : i < min (mid - lo) (b.length - lo) := by omega
      have : i < hi - lo := by omega
      simp [*]
    · have h3 : ¬ i < min (mid - lo) (b.length - lo) := by omega
      have h4 : min (mid - lo) (b.length - lo) = mid - lo := by omega
      have h5 : mid + (i - (mid - lo)) = lo + i := by omega
      have h6 : (i - (mid - lo) < hi - mid) ↔ (i < hi - lo) := by omega
      simp only [h3, if_false, h4, h5, h6, hi1]
  · have h3 : b[lo + i]? = none := List.getElem?_eq_none (by omega)
    have h4 : ∀ j, lo + i ≤ j → b[j]? = none := fun j hj => List.getElem?_eq_none (by omega)
    have h5 : ¬ i < min (mid - lo) (b.length - lo) := by omega
    simp only [h5, if_false, h3, ite_self]
    rw [h4 _ (by omega)]
    simp

theorem slice_all (b : List Byte) (n : Nat) (h : b.length = n) : slice b 0 n = b := by
  subst h
  simp [slice]

/-- C10: decoding a 512-byte buffer and encoding the record again gives the
buffer back: for `Header` when bytes 16-511 are zero, for `Checkpoint` when
bytes `0x20-0x11F` and `0x130-0x1FF` are zero, and for `LogBlock` always. -/
theorem encode_decode_roundtrip (b : List Byte) (h : b.length = 512) :
    (slice b 16 512 = List.replicate 496 0 → encodeHeader (decodeHeader b).2 = b) ∧
    (slice b 0x20 0x120 = List.replicate 256 0 → slice b 0x130 0x200 = List.replicate 208 0 →
      encodeCheckpoint (decodeCheckpoint b).2 = b) ∧
    encodeLogBlock (decodeLogBlock b).2 = b := by
  have l2 : ∀ o, o + 2 ≤ 512 → (slice b o (o + 2)).length = 2 := by
    intro o ho; rw [length_slice _ _ _ (by omega)]; omega
  have l4 : ∀ o, o + 4 ≤ 512 → (slice b o (o + 4)).length = 4 := by
    intro o ho; rw [length_slice _ _ _ (by omega)]; omega
  have l8 : ∀ o, o + 8 ≤ 512 → (slice b o (o + 8)).length = 8 := by
    intro o ho; rw [length_slice _ _ _ (by omega)]; omega
  refine ⟨?_, ?_, ?_⟩
  · intro hp
    have r : List.replicate 32 (0 : Byte) ++ List.replicate 464 0 = List.replicate 496 0 := by
      decide
    rw [decodeHeader_eq b h, valueHeader_eq b h]
    simp only [encodeHeader]
    rw [PutUint32_beNat _ (l4 0 (by omega)), PutUint64_beNat _ (l8 4 (by omega)),
      PutUint32_beNat _ (l4 12 (by omega)), List.append_assoc _ (List.replicate 32 0), r, ← hp,
      slice_append_slice b 0 4 12 (by omega) (by omega),
      slice_append_slice b 0 12 16 (by omega) (by omega),
      slice_append_slice b 0 16 512 (by omega) (by omega), slice_all b 512 h]
  · intro hp1 hp2
    rw [decodeCheckpoint_eq b h, valueCheckpoint_eq b h]
    simp only [encodeCheckpoint]
    rw [PutUint64_beNat _ (l8 0x00 (by omega)), PutUint64_beNat _ (l8 0x08 (by omega)),
      PutUint32_beNat _ (l4 0x10 (by omega)), PutUint32_beNat _ (l4 0x14 (by omega)),
      PutUint64_beNat _ (l8 0x18 (by omega)), PutUint32_beNat _ (l4 0x120 (by omega)),
      PutUint32_beNat _ (l4 0x124 (by omega)), PutUint32_beNat _ (l4 0x128 (by omega)),
      PutUint32_beNat _ (l4 0x12C (by omega)), ← hp1, ← hp2,
      slice_append_slice b 0x00 0x08 0x10 (by omega) (by omega),
      slice_append_slice b 0x00 0x10 0x14 (by omega) (by omega),
      slice_append_slice b 0x00 0x14 0x18 (by omega) (by omega),
      slice_append_slice b 0x00 0x18 0x20 (by omega) (by omega),
      slice_append_slice b 0x00 0x20 0x120 (by omega) (by omega),
      slice_append_slice b 0x00 0x120 0x124 (by omega) (by omega),
      slice_append_slice b 0x00 0x124 0x128 (by omega) (by omega),
      slice_append_slice b 0x00 0x128 0x12C (by omega) (by omega),
      slice_append_slice b 0x00 0x12C 0x130 (by omega) (by omega),
      slice_append_slice b 0x00 0x130 0x200 (by omega) (by omega), slice_all b 512 h]
  · rw [decodeLogBlock_eq b h, valueLogBlock_eq b h]
    simp only [encodeLogBlock]
    rw [PutUint32_beNat _ (l4 0 (by omega)), PutUint16_beNat _ (l2 4 (by omega)),
      PutUint16_beNat _ (l2 6 (by omega)), PutUint32_beNat _ (l4 8 (by omega)),
      PutUint16_beNat _ (l2 12 (by omega)), PutUint32_beNat _ (l4 508 (by omega)),
      slice_append_slice b 0 4 6 (by omega) (by omega),
      slice_append_slice b 0 6 8 (by omega) (by omega),
      slice_append_slice b 0 8 12 (by omega) (by omega),
      slice_append_slice b 0 12 14 (by omega) (by omega),
      slice_append_slice b 0 14 508 (by omega) (by omega),
      slice_append_slice b 0 508 512 (by omega) (by omega), slice_all b 512 h]

/-- C10, witness: the buffer with group number 1, first LSN `0x2000`, archived
file number 3 and zero bytes from offset 16 on is given back by all three round
trips. -/
theorem encode_decode_roundtrip_witness :
    zeroPaddedBuffer.length = 512 ∧
      encodeHeader (decodeHeader zeroPaddedBuffer).2 = zeroPaddedBuffer ∧
      encodeCheckpoint (decodeCheckpoint zeroPaddedBuffer).2 = zeroPaddedBuffer ∧
      encodeLogBlock (decodeLogBlock zeroPaddedBuffer).2 = zeroPaddedBuffer :=
  ⟨by decide, (encode_decode_roundtrip zeroPaddedBuffer (by decide)).1 (by decide),
    (encode_decode_roundtrip zeroPaddedBuffer (by decide)).2.1 (by decide) (by decide),
    (encode_decode_roundtrip zeroPaddedBuffer (by decide)).2.2⟩

/-! ## Padding bytes -/

theorem getElem?_slice (c : List Byte) (lo hi j : Nat) (h : lo + j < hi) :
    (slice c lo hi)[j]? = getElem? c (lo + j) := by
  have h1 : j < hi - lo := by omega
  simp only [slice, List.getElem?_take, List.getElem?_drop, h1, if_true]

theorem getElem?_of_slice_eq (a b : List Byte) (lo hi : Nat)
    (h : slice a lo hi = slice b lo hi) (i : Nat) (hlo : lo ≤ i) (hhi : i < hi) :
    a[i]? = b[i]? := by
  obtain ⟨j, rfl⟩ : ∃ j, i = lo + j := ⟨i - lo, by omega⟩
  rw [← getElem?_slice a lo hi j hhi, ← getElem?_slice b lo hi j hhi, h]

/-- C11: two 512-byte buffers that agree outside the padding ranges of a record
kind decode to the same record, and the reports printed for them are the
same: for `Header` the padding is bytes 16-511, for `Checkpoint` bytes
`0x20-0x11F` and `0x130-0x1FF`. -/
theorem padding_never_reaches_a_field (b1 b2 : List Byte) (h1 : b1.length = 512)
    (h2 : b2.length = 512) :
    ((∀ i, i < 16 → b1[i]? = b2[i]?) →
      decodeHeader b1 = decodeHeader b2 ∧
        headerReport (decodeHeader b1).2 = headerReport (decodeHeader b2).2) ∧
    ((∀ i, i < 0x20 ∨ (0x120 ≤ i ∧ i < 0x130) → b1[i]? = b2[i]?) →
      decodeCheckpoint b1 = decodeCheckpoint b2 ∧
        firstCheckpointReport (decodeCheckpoint b1).2 =
          firstCheckpointReport (decodeCheckpoint b2).2 ∧
        secondCheckpointReport (decodeCheckpoint b1).2 =
          secondCheckpointReport (decodeCheckpoint b2).2) := by
  constructor
  · intro hagree
    have e : decodeHeader b1 = decodeHeader b2 := by
      rw [decodeHeader_eq b1 h1, decodeHeader_eq b2 h2, valueHeader_eq b1 h1,
        valueHeader_eq b2 h2,
        slice_congr b1 b2 0 4 (fun i _ hi => hagree i (by omega)),
        slice_congr b1 b2 4 12 (fun i _ hi => hagree i (by omega)),
        slice_congr b1 b2 12 16 (fun i _ hi => hagree i (by omega))]
    exact ⟨e, by rw [e]⟩
  · intro hagree
    have e : decodeCheckpoint b1 = decodeCheckpoint b2 := by
      rw [decodeCheckpoint_eq b1 h1, decodeCheckpoint_eq b2 h2, valueCheckpoint_eq b1 h1,
        valueCheckpoint_eq b2 h2,
        slice_congr b1 b2 0x00 0x08 (fun i _ hi => hagree i (by omega)),
        slice_congr b1 b2 0x08 0x10 (fun i _ hi => hagree i (by omega)),
        slice_congr b1 b2 0x10 0x14 (fun i _ hi => hagree i (by omega)),
        slice_congr b1 b2 0x14 0x18 (fun i _ hi => hagree i (by omega)),
        slice_congr b1 b2 0x18 0x20 (fun i _ hi => hagree i (by omega)),
        slice_congr b1 b2 0x120 0x124 (fun i hlo hi => hagree i (by omega)),
        slice_congr b1 b2 0x124 0x128 (fun i hlo hi => hagree i (by omega)),
        slice_congr b1 b2 0x128 0x12C (fun i hlo hi => hagree i (by omega)),
        slice_congr b1 b2 0x12C 0x130 (fun i hlo hi => hagree i (by omega))]
    exact ⟨e, by rw [e], by rw [e]⟩

/-- C11, witness: the synthetic checkpoint with `0xEE` padding and with zero
padding decode to the same record and give the same two reports. -/
theorem padding_never_reaches_a_field_witness :
    syntheticCheckpoint.length = 512 ∧ syntheticCheckpointZeroPadding.length = 512 ∧
      syntheticCheckpoint ≠ syntheticCheckpointZeroPadding ∧
      decodeCheckpoint syntheticCheckpoint = decodeCheckpoint syntheticCheckpointZeroPadding ∧
      firstCheckpointReport (decodeCheckpoint syntheticCheckpoint).2 =
        firstCheckpointReport (decodeCheckpoint syntheticCheckpointZeroPadding).2 ∧
      secondCheckpointReport (decodeCheckpoint syntheticCheckpoint).2 =
        secondCheckpointReport (decodeCheckpoint syntheticCheckpointZeroPadding).2 :=
  ⟨by decide, by decide, by decide,
    (padding_never_reaches_a_field syntheticCheckpoint syntheticCheckpointZeroPadding
      (by decide) (by decide)).2
      (fun i hi => by
        rcases hi with hi | hi
        · exact getElem?_of_slice_eq _ _ 0 0x20 (by decide) i (by omega) hi
        · exact getElem?_of_slice_eq _ _ 0x120 0x130 (by decide) i hi.1 hi.2)⟩

/-! ## The driver on a file of any length -/

theorem readIntoStruct_cases {α : Type} (t : BinaryData α) (ht : sizeofStruct t.typ = 512)
    (data : List Byte) (pos : Nat) (dest : α) :
    readIntoStruct t { data := data, pos := pos } dest 512 =
      if data.length ≤ pos then ((some .EOF, dest), { data := data, pos := pos })
      else ((none, (t.value { buf := readBuffer { data := data, pos := pos }, offset := 0 }).1),
        { data := data, pos := pos + min 512 (data.length - pos) }) := by
  by_cases h : data.length ≤ pos
  · rw [if_pos h, readIntoStruct_eof _ _ _ (by simpa using h)]
  · rw [if_neg h, readIntoStruct_ok t ht _ _ (by simp only; omega)]

theorem headerRead_file (data : List Byte) :
    (headerRead data).2 = { data := data, pos := min 512 data.length } := by
  rw [headerRead, readIntoStruct_cases _ sizeofStruct_HeaderType]
  by_cases h : data.length ≤ 0
  · rw [if_pos h]
    have e : min 512 data.length = 0 := by omega
    rw [e]
  · rw [if_neg h]
    simp only [Nat.zero_add, Nat.sub_zero]

theorem checkpointRead_file (data : List Byte) :
    (checkpointRead data).2 = { data := data, pos := min 1024 data.length } := by
  rw [checkpointRead, headerRead_file, show cpsize = 512 from rfl,
    readIntoStruct_cases _ sizeofStruct_CheckpointType]
  by_cases h : data.length ≤ min 512 data.length
  · rw [if_pos h]
    have e : min 512 data.length = min 1024 data.length := by omega
    rw [e]
  · rw [if_neg h]
    have e : min 512 data.length + min 512 (data.length - min 512 data.length) =
        min 1024 data.length := by omega
    simp only [e]

theorem checkpoint2Read_eq (data : List Byte) :
    checkpoint2Read data =
      if data.length ≤ 1024 then
        ((some .EOF, Checkpoint.zero), { data := data, pos := min 1024 data.length })
      else
        ((none, (decoder.valueCheckpoint
            { buf := readBuffer { data := data, pos := 1024 }, offset := 0 }).1),
          { data := data, pos := min 1536 data.length }) := by
  rw [checkpoint2Read, checkpointRead_file, show cpsize = 512 from rfl,
    readIntoStruct_cases _ sizeofStruct_CheckpointType]
  by_cases h : data.length ≤ 1024
  · have h' : data.length ≤ min 1024 data.length := by omega
    rw [if_pos h, if_pos h']
  · have h' : ¬ data.length ≤ min 1024 data.length := by omega
    have e1 : min 1024 data.length = 1024 := by omega
    have e2 : 1024 + min 512 (data.length - 1024) = min 1536 data.length := by omega
    rw [if_neg h, if_neg h', e1, e2]
    rfl

theorem dump_unfold (data : List Byte) :
    dump { data := data, pos := 0 } =
      (blockLoop ((checkpoint2Read data).2.data.length - ((checkpoint2Read data).2.pos + 512) + 2)
          { data := (checkpoint2Read data).2.data, pos := (checkpoint2Read data).2.pos + 512 }
          (checkpoint2Read data).1.1).map
        (fun blocks => preamble data ++ blocks) := by
  unfold dump
  dsimp only [preamble, headerRead, checkpointRead, checkpoint2Read, File.Seek]
  rw [if_pos rfl]

/-- What `main` prints for a file of any length: the loop always ends. -/
theorem dump_any (data : List Byte) :
    dump { data := data, pos := 0 } =
      some (preamble data ++ (loopBlocks data).flatMap logBlockReport) := by
  rw [dump_unfold, loopBlocks]
  by_cases h : data.length ≤ 1024
  · rw [checkpoint2Read_eq, if_pos h, if_pos h]
    simp only [blockLoop_succ_some, Option.map_some', List.flatMap_nil]
  · rw [checkpoint2Read_eq, if_neg h, if_neg h]
    simp only []
    rw [blockLoop_eq data _ _ (Nat.le_refl _)]
    simp only [Option.map_some']

theorem length_completeBlocks (data : List Byte) (pos n : Nat) :
    (completeBlocks data pos n).length = n := by
  simp only [completeBlocks, List.length_map, List.length_range]

theorem length_renderedBlocks (data : List Byte) (pos : Nat) :
    (renderedBlocks data pos).length = (data.length - pos + 511) / 512 + 1 := by
  rw [renderedBlocks, List.length_append, length_completeBlocks, tailBlocks]
  by_cases h : data.length ≤ pos + 512 * ((data.length - pos) / 512)
  · rw [if_pos h]
    simp only [List.length_cons, List.length_nil]
    omega
  · rw [if_neg h]
    simp only [List.length_cons, List.length_nil]
    omega

theorem renderedBlocks_ends_zero (data : List Byte) (pos : Nat) :
    ∃ before, renderedBlocks data pos = before ++ [LogBlock.zero] := by
  rw [renderedBlocks, tailBlocks]
  by_cases h : data.length ≤ pos + 512 * ((data.length - pos) / 512)
  · rw [if_pos h]
    exact ⟨_, rfl⟩
  · rw [if_neg h]
    exact ⟨completeBlocks data pos ((data.length - pos) / 512) ++
      [(decodeLogBlock (readBuffer
        { data := data, pos := pos + 512 * ((data.length - pos) / 512) })).2], by simp⟩

theorem length_preamble (data : List Byte) : (preamble data).length = 31 := by
  simp [preamble, headerReport, firstCheckpointReport, secondCheckpointReport]

theorem length_flatMap_logBlockReport (blocks : List LogBlock) :
    (blocks.flatMap logBlockReport).length = 9 * blocks.length := by
  induction blocks with
  | nil => rfl
  | cons x xs ih =>
    rw [List.flatMap_cons, List.length_append, ih, List.length_cons]
    simp only [logBlockReport, List.length_cons, List.length_nil]
    omega

/-! ## Failed reads -/

theorem binaryRead_err {α : Type} (t : BinaryData α) (data : List Byte) (dest : α)
    (h : (binaryRead t data dest).1 ≠ none) : (binaryRead t data dest).2 = dest := by
  unfold binaryRead at h ⊢
  dsimp only at h ⊢
  by_cases h1 : data.length < sizeofStruct t.typ
  · rw [if_pos h1]
    by_cases h2 : data.length = 0
    · rw [if_pos h2]
    · rw [if_neg h2]
  · rw [if_neg h1] at h
    exact absurd rfl h

theorem readIntoStruct_err {α : Type} (t : BinaryData α) (file : File) (dest : α) (size : Nat)
    (h : (readIntoStruct t file dest size).1.1 ≠ none) :
    (readIntoStruct t file dest size).1.2 = dest := by
  unfold readIntoStruct at h ⊢
  generalize readNextBytes file size = r at h ⊢
  obtain ⟨⟨bytes, err⟩, f⟩ := r
  cases err with
  | some e => rfl
  | none =>
    dsimp only at h ⊢
    generalize hb : binaryRead t bytes dest = rb at h ⊢
    obtain ⟨e2, d2⟩ := rb
    cases e2 with
    | none => exact absurd rfl h
    | some e =>
      have := binaryRead_err t bytes dest (by rw [hb]; simp)
      rw [hb] at this
      exact this

theorem headerReport_zero : headerReport Header.zero = zeroHeaderReport := by decide

theorem firstCheckpointReport_zero :
    firstCheckpointReport Checkpoint.zero =
      [rule, "Parsed first checkpoint data:\n"] ++ zeroCheckpointLines := by decide

theorem secondCheckpointReport_zero :
    secondCheckpointReport Checkpoint.zero =
      [rule, "Parsed second checkpoint data:\n"] ++ zeroCheckpointLines ++ ["\n", "\n"] := by
  decide

theorem fmtSpaceX_zero : fmtSpaceX (List.replicate 494 0) =
    " ".intercalate (List.replicate 494 "00") := by
  rw [fmtSpaceX, List.map_replicate, show fmtByteX 0 = "00" by decide]

theorem logBlockReport_zero : logBlockReport LogBlock.zero = zeroLogBlockReport := by
  simp only [logBlockReport, LogBlock.zero, zeroLogBlockReport, fmtSpaceX_zero,
    show fmtX 0 = "0" by decide, show fmtd 0 = "0" by decide,
    show fmtv (isFirstBlock 0) = "false" by decide]
  rfl

/-- C12: a `readIntoStruct` call that returns an error returns the destination
record as it was; `main` goes on after each of its first three reads whatever
the error is, and the report it prints for a header or checkpoint whose read
failed is that of the zero record: every field line shows zero. -/
theorem failed_read_renders_zero_record (data : List Byte) :
    (∀ (α : Type) (t : BinaryData α) (file : File) (dest : α) (size : Nat),
      (readIntoStruct t file dest size).1.1 ≠ none →
        (readIntoStruct t file dest size).1.2 = dest) ∧
    (∃ rest, main (some data) =
      some ([path ++ " opened\n"] ++ headerReport (headerRead data).1.2 ++
        firstCheckpointReport (checkpointRead data).1.2 ++
        secondCheckpointReport (checkpoint2Read data).1.2 ++ rest)) ∧
    ((headerRead data).1.1 ≠ none → headerReport (headerRead data).1.2 = zeroHeaderReport) ∧
    ((checkpointRead data).1.1 ≠ none →
      firstCheckpointReport (checkpointRead data).1.2 =
        [rule, "Parsed first checkpoint data:\n"] ++ zeroCheckpointLines) ∧
    ((checkpoint2Read data).1.1 ≠ none →
      secondCheckpointReport (checkpoint2Read data).1.2 =
        [rule, "Parsed second checkpoint data:\n"] ++ zeroCheckpointLines ++ ["\n", "\n"]) := by
  refine ⟨fun α t file dest size h => readIntoStruct_err t file dest size h, ?_, ?_, ?_, ?_⟩
  · refine ⟨["Current position: " ++ fmtd ((checkpoint2Read data).2.pos + 512) ++ "\n"] ++
      (loopBlocks data).flatMap logBlockReport, ?_⟩
    simp only [main]
    rw [dump_any, preamble, List.append_assoc]
  · intro h
    rw [headerRead] at h ⊢
    rw [readIntoStruct_err _ _ _ _ h, headerReport_zero]
  · intro h
    rw [checkpointRead] at h ⊢
    rw [readIntoStruct_err _ _ _ _ h, firstCheckpointReport_zero]
  · intro h
    rw [checkpoint2Read] at h ⊢
    rw [readIntoStruct_err _ _ _ _ h, secondCheckpointReport_zero]

/-- C12, witness: on the empty file all three reads fail and the three reports
are those of zero records. -/
theorem failed_read_renders_zero_record_witness :
    (headerRead []).1.1 = some .EOF ∧ (checkpointRead []).1.1 = some .EOF ∧
      (checkpoint2Read []).1.1 = some .EOF ∧
      headerReport (headerRead []).1.2 = zeroHeaderReport ∧
      firstCheckpointReport (checkpointRead []).1.2 =
        [rule, "Parsed first checkpoint data:\n"] ++ zeroCheckpointLines ∧
      secondCheckpointReport (checkpoint2Read []).1.2 =
        [rule, "Parsed second checkpoint data:\n"] ++ zeroCheckpointLines ++ ["\n", "\n"] :=
  ⟨by decide, by decide, by decide,
    (failed_read_renders_zero_record []).2.2.1 (by decide),
    (failed_read_renders_zero_record []).2.2.2.1 (by decide),
    (failed_read_renders_zero_record []).2.2.2.2 (by decide)⟩

theorem length_offsetTenCheckpoint : offsetTenCheckpoint.length = 512 := by decide

theorem decodeCheckpoint_offsetTen :
    decodeCheckpoint offsetTenCheckpoint = (none, { Checkpoint.zero with Offset := 10 }) := by
  rw [decodeCheckpoint_eq _ length_offsetTenCheckpoint,
    valueCheckpoint_eq _ length_offsetTenCheckpoint]
  decide

/-- C13 (the code departs from the claim): for the file whose two checkpoints
both hold `Offset = 10`, `main` prints the first checkpoint report with the
Offset line `0x10` (decimal digits after `0x`) and the second checkpoint report
with the Offset line `0xA` (hexadecimal digits). -/
theorem first_checkpoint_offset_in_decimal :
    main (some offsetTenFile) =
      some ([path ++ " opened\n"] ++ headerReport Header.zero ++
        firstCheckpointReport { Checkpoint.zero with Offset := 10 } ++
        secondCheckpointReport { Checkpoint.zero with Offset := 10 } ++
        ["Current position: 2048\n"] ++ logBlockReport LogBlock.zero) ∧
      (firstCheckpointReport { Checkpoint.zero with Offset := 10 })[4]? =
        some "Offset     : 0x10\n" ∧
      (secondCheckpointReport { Checkpoint.zero with Offset := 10 })[4]? =
        some "Offset     : 0xA\n" := by
  have lz : (List.replicate 512 (0 : Byte)).length = 512 := List.length_replicate _ _
  have lc := length_offsetTenCheckpoint
  have l1 : (List.replicate 512 (0 : Byte) ++ offsetTenCheckpoint).length = 1024 := by
    rw [List.length_append, lz, lc]
  have l2 : (List.replicate 512 (0 : Byte) ++ offsetTenCheckpoint ++
      offsetTenCheckpoint).length = 1536 := by
    rw [List.length_append, l1, lc]
  have l3 : offsetTenFile.length = 2048 + 512 * 0 := by
    rw [offsetTenFile, List.length_append, l2, lz]
  have s1 : slice offsetTenFile 0 512 = List.replicate 512 0 := by
    rw [offsetTenFile, slice_append_left _ _ _ _ (by omega),
      slice_append_left _ _ _ _ (by omega), slice_append_left _ _ _ _ (by omega),
      slice_all _ _ lz]
  have s2 : slice offsetTenFile 512 1024 = offsetTenCheckpoint := by
    rw [offsetTenFile, slice_append_left _ _ _ _ (by omega),
      slice_append_left _ _ _ _ (by omega), slice_append_right _ _ _ _ lz (by rw [lc])]
  have s3 : slice offsetTenFile 1024 1536 = offsetTenCheckpoint := by
    rw [offsetTenFile, slice_append_left _ _ _ _ (by omega),
      slice_append_right _ _ _ _ l1 (by rw [lc])]
  refine ⟨?_, by decide, by decide⟩
  simp only [main]
  rw [dump_eq _ (by omega), s1, s2, s3, decodeHeader_zero, decodeCheckpoint_offsetTen,
    renderedBlocks_exact _ 2048 0 l3]
  simp only [completeBlocks, List.range_zero, List.map_nil, List.nil_append, List.flatMap_cons,
    List.flatMap_nil, List.append_nil]

/-- C14: for a file of any length `L` the block loop ends, and `main` prints
the preamble followed by the reports of a list of log blocks that is empty when
`L <= 1024` (the read of the second checkpoint fails and the guard is false at
once) and has `ceil(max(L - 2048, 0) / 512) + 1` entries when `L > 1024`; the
output has `31 + 9 * count` prints. -/
theorem block_report_count (data : List Byte) :
    ∃ blocks : List LogBlock,
      main (some data) = some (preamble data ++ blocks.flatMap logBlockReport) ∧
      blocks.length =
        (if data.length ≤ 1024 then 0 else (data.length - 2048 + 511) / 512 + 1) ∧
      ((checkpoint2Read data).1.1 ≠ none ↔ data.length ≤ 1024) ∧
      (∀ out, main (some data) = some out →
        out.length =
          31 + 9 * (if data.length ≤ 1024 then 0 else (data.length - 2048 + 511) / 512 + 1)) := by
  have hlen : (loopBlocks data).length =
      (if data.length ≤ 1024 then 0 else (data.length - 2048 + 511) / 512 + 1) := by
    rw [loopBlocks]
    by_cases h : data.length ≤ 1024
    · rw [if_pos h, if_pos h]; rfl
    · rw [if_neg h, if_neg h, length_renderedBlocks]
      omega
  refine ⟨loopBlocks data, dump_any data, hlen, ?_, ?_⟩
  · rw [checkpoint2Read_eq]
    by_cases h : data.length ≤ 1024
    · simp [h]
    · simp [h]
  · intro out hout
    simp only [main] at hout
    rw [dump_any, Option.some.injEq] at hout
    rw [← hout, List.length_append, length_preamble, length_flatMap_logBlockReport, hlen]

/-- C15: for a file longer than 1024 bytes the last nine prints of `main` are
the report of the zero `LogBlock{}` (header number 0, not a first block, sizes
and checksum 0, 494 zero data bytes), whatever the bytes of the file are: a read
at the end of the file fails and hands back the zero block it was given. -/
theorem last_block_report_is_zero (data : List Byte) (h : 1024 < data.length) :
    ∃ before, main (some data) = some (before ++ logBlockReport LogBlock.zero) ∧
      logBlockReport LogBlock.zero = zeroLogBlockReport ∧
      (∀ out, main (some data) = some out →
        out.drop (out.length - 9) = zeroLogBlockReport) ∧
      (∀ pos, data.length ≤ pos →
        readIntoStruct LogBlock.binary { data := data, pos := pos } LogBlock.zero 512 =
          ((some .EOF, LogBlock.zero), { data := data, pos := pos })) := by
  obtain ⟨blocks, hb⟩ := renderedBlocks_ends_zero data (min 1536 data.length + 512)
  have e : main (some data) =
      some ((preamble data ++ blocks.flatMap logBlockReport) ++ logBlockReport LogBlock.zero) := by
    simp only [main]
    rw [dump_any, loopBlocks, if_neg (by omega), hb, List.flatMap_append, List.append_assoc]
    simp only [List.flatMap_cons, List.flatMap_nil, List.append_nil]
  refine ⟨_, e, logBlockReport_zero, ?_,
    fun pos hp => readIntoStruct_eof _ _ _ (by simpa using hp)⟩
  intro out hout
  rw [e, Option.some.injEq] at hout
  have l9 : (logBlockReport LogBlock.zero).length = 9 := by
    simp only [logBlockReport, List.length_cons, List.length_nil]
  rw [← hout, List.length_append, l9, Nat.add_sub_cancel, List.drop_left, logBlockReport_zero]

/-- C15, witness: a file of 1025 zero bytes ends with the report of the zero
block. -/
theorem last_block_report_is_zero_witness :
    1024 < (List.replicate 1025 (0 : Byte)).length ∧
      ∃ before, main (some (List.replicate 1025 0)) = some (before ++ zeroLogBlockReport) := by
  have hl : 1024 < (List.replicate 1025 (0 : Byte)).length := by
    rw [List.length_replicate]; omega
  obtain ⟨before, h1, h2, _, _⟩ := last_block_report_is_zero (List.replicate 1025 0) hl
  exact ⟨hl, before, by rw [h1, h2]⟩

end RedoLogDumper
